import Mathlib

/-!
RemoteSyslogAppender.

A shallow embedding of `src/RemoteSyslogAppender.cpp` (log4cpp) and the
properties of its specification.

Conventions of the embedding.

* C++ `int` values are integers of Lean; every operation of the source that
  can leave the 32-bit range is followed by `wrap32` (two's complement
  wrap-around), every cast to `unsigned int` by `toUInt32`.
* A byte of a C buffer or of a `std::string` is a `Char`; a buffer is a
  list of bytes.
* The operating system is an environment `Env` that answers every system
  call from the history of the calls made so far; an operation of the
  appender returns the new state together with the system calls it made, in
  order.
* The capacity of a `char` array is not enforced by the operations that
  write to it (`sprintf`, `memcpy`, `memmove`): they are modelled by their
  effect on the bytes, and whether the bytes fit is a separate statement.
* Lengths of type `size_t` are natural numbers; they stay far below 2^64.
* The non-WIN32 branches of the source are the ones embedded; the mutex is
  not modelled (one thread).
-/

namespace log4cpp

/-! ## Machine integers -/

/-- Two's complement wrap-around of an integer into the range of a 32-bit
`int`. -/
def wrap32 (x : Int) : Int := (x + 2147483648) % 4294967296 - 2147483648

/-- The smallest value of a 32-bit `int`. -/
def INT_MIN : Int := -2147483648

/-- The largest value of a 32-bit `int`. -/
def INT_MAX : Int := 2147483647

/-! ## Syslog constants -/

/-- Modelled from the spec: the syslog severity constants come from
`syslog.h` (or the appender's header), which is not part of the source
file; the glossary fixes the scale 0 = emergency … 7 = debug. -/
def LOG_EMERG : Int := 0

/-- Modelled from the spec: see `LOG_EMERG`. -/
def LOG_ALERT : Int := 1

/-- Modelled from the spec: see `LOG_EMERG`. -/
def LOG_CRIT : Int := 2

/-- Modelled from the spec: see `LOG_EMERG`. -/
def LOG_ERR : Int := 3

/-- Modelled from the spec: see `LOG_EMERG`. -/
def LOG_WARNING : Int := 4

/-- Modelled from the spec: see `LOG_EMERG`. -/
def LOG_NOTICE : Int := 5

/-- Modelled from the spec: see `LOG_EMERG`. -/
def LOG_INFO : Int := 6

/-- Modelled from the spec: see `LOG_EMERG`. -/
def LOG_DEBUG : Int := 7

/-- Modelled from the spec: the "user-level" facility constant `LOG_USER`
of `syslog.h`, already shifted: `1 << 3`. -/
def LOG_USER : Int := 8

/-! ## toSyslogPriority -/

/-- The table `static int priorities[8]` of `toSyslogPriority`. -/
def priorities : List Int :=
  [LOG_EMERG, LOG_ALERT, LOG_CRIT, LOG_ERR, LOG_WARNING, LOG_NOTICE, LOG_INFO, LOG_DEBUG]

/-- The function `RemoteSyslogAppender::toSyslogPriority`: `priority++`
(on a 32-bit `int`, hence `wrap32`), `priority /= 100` (C++ division
truncates toward zero: `Int.tdiv`), then the two range tests and the table
look-up. -/
def toSyslogPriority (priority : Int) : Int :=
  let priority := wrap32 (priority + 1)
  let priority := Int.tdiv priority 100
  if priority < 0 then LOG_EMERG
  else if priority > 7 then LOG_DEBUG
  else priorities.getD priority.toNat 0

/-- The reference value of the specification for `mapSeverity`: increment
the level by one, integer-divide by 100 (truncating toward zero), clamp the
result into [0,7]. The arithmetic is that of the integers. -/
def mapSeverityRef (L : Int) : Int :=
  max 0 (min 7 (Int.tdiv (L + 1) 100))

/-! ## Formatting -/

/-- A buffer of bytes (`char`). -/
abbrev Bytes := List Char

/-- Decimal digits of `n`, most significant first; `fuel` bounds the number
of digits produced. -/
def decimalDigits : Nat → Nat → Bytes
  | 0, _ => []
  | fuel + 1, n =>
    if n < 10 then [Nat.digitChar n]
    else decimalDigits fuel (n / 10) ++ [Nat.digitChar (n % 10)]

/-- The text produced by the `printf` conversion `%u`. -/
def fmtUnsigned (n : Nat) : Bytes := decimalDigits (n + 1) n

/-- The text produced by the `printf` conversion `%d`. -/
def fmtInt (v : Int) : Bytes :=
  if v < 0 then '-' :: fmtUnsigned (-v).toNat else fmtUnsigned v.toNat

/-- The text that `sprintf (buf, "<%d>", priority)` produces (without the
terminating NUL); its length is the value `sprintf` returns. -/
def sprintfPreamble (priority : Int) : Bytes := '<' :: fmtInt priority ++ ['>']

/-- The text that `sprintf(octet_framing, "%u ", n)` produces (without the
terminating NUL). -/
def sprintfOctetFraming (n : Nat) : Bytes := fmtUnsigned n ++ [' ']

/-- The cast `(unsigned int) x`. -/
def toUInt32 (x : Int) : Nat := (x % 4294967296).toNat

/-- The conversion of an `int` length to the `size_t` parameter of `send`
and `sendto`. -/
def toSizeT (x : Int) : Nat := (x % 18446744073709551616).toNat

/-- The NUL byte. -/
def NUL : Char := Char.ofNat 0

/-- The array `new char [n]`; its bytes are indeterminate in C++ and NUL
here. -/
def newBuf (n : Nat) : Bytes := List.replicate n NUL

/-- Writes the bytes `src` into `buf` from offset `off` on (`sprintf`,
`memcpy`). -/
def writeAt (buf : Bytes) (off : Nat) (src : Bytes) : Bytes :=
  buf.take off ++ src ++ buf.drop (off + src.length)

/-- The call `memmove(buf + dst, buf + src, n)`. -/
def memmove (buf : Bytes) (dst src n : Nat) : Bytes :=
  writeAt buf dst ((buf.drop src).take n)

/-! ## Sockets and the operating system -/

/-- Modelled from the spec: the macro `INVALID_SOCKET` is defined in a
header that is not part of the source file; it is the handle of the Closed
state ("no live socket"), the value -1 that `socket()` returns on failure. -/
def INVALID_SOCKET : Int := -1

/-- Modelled from the spec: the macro `IS_VALID_SOCKET` is defined in a
header that is not part of the source file; a handle is live exactly when
it is not `INVALID_SOCKET`. -/
def IS_VALID_SOCKET (s : Int) : Bool := s != INVALID_SOCKET

/-- The socket types the appender asks for. -/
inductive SockType where
  | SOCK_DGRAM
  | SOCK_STREAM
  deriving DecidableEq, Repr

/-- A system call made by the appender, with its arguments and its result.
For `send` and `sendto`, `data` is the bytes of the buffer the call was
given (its first `len` bytes) and `ret` the value returned. -/
inductive SysCall where
  | gethostbyname (name : String) (pent : Option Nat)
  | gethostbyaddr (ip : Nat) (pent : Option Nat)
  | socket (type : SockType) (ret : Int)
  | connect (fd : Int) (ip : Nat) (port : Nat) (ret : Int)
  | send (fd : Int) (data : Bytes) (ret : Int)
  | sendto (fd : Int) (data : Bytes) (ip : Nat) (port : Nat) (ret : Int)
  | closesocket (fd : Int)
  deriving DecidableEq, Repr

/-- The operating system and the network: the result of every system call,
given the calls made before it and its arguments. A resolver result is
`none` for a NULL `hostent` and `some a` for one whose first address
`h_addr` is `a`. -/
structure Env where
  gethostbyname : List SysCall → String → Option Nat
  inet_addr : String → Nat
  gethostbyaddr : List SysCall → Nat → Option Nat
  socket : List SysCall → SockType → Int
  connect : List SysCall → Int → Nat → Nat → Int
  send : List SysCall → Int → Bytes → Int
  sendto : List SysCall → Int → Bytes → Nat → Nat → Int

/-! ## The appender -/

/-- The data members of `RemoteSyslogAppender` (the mutex apart). -/
structure RemoteSyslogAppender where
  name : String
  _syslogName : String
  _relayer : String
  _facility : Int
  _portNumber : Int
  _socket : Int
  _ipAddr : Nat
  _tcp : Bool
  deriving DecidableEq, Repr

/-- What `_append` uses of a `LoggingEvent`: the text that the layout
makes of it (`_getLayout().format(event)`) and its priority. -/
structure LoggingEvent where
  formatted : Bytes
  priority : Int
  deriving DecidableEq, Repr

/-- The value `htons (_portNumber)` stored in `sain.sin_port`: the port as
a 16-bit number. -/
def htons (port : Int) : Nat := (port % 65536).toNat

/-- The second half of `open()`: `if (!_tcp) { _socket = socket(AF_INET,
SOCK_DGRAM, 0); ... }`. -/
def RemoteSyslogAppender.openSocket (env : Env) (hist : List SysCall) (s : RemoteSyslogAppender) :
    RemoteSyslogAppender × List SysCall :=
  if !s._tcp then
    let fd := env.socket hist SockType.SOCK_DGRAM
    ({ s with _socket := fd }, [SysCall.socket SockType.SOCK_DGRAM fd])
  else (s, [])

/-- The function `RemoteSyslogAppender::open()`: the new state and the system
calls made. When the address is 0 the host is resolved with
`gethostbyname`, then with `inet_addr` and `gethostbyaddr`; when both fail
the function returns at once. -/
def RemoteSyslogAppender.open (env : Env) (hist : List SysCall) (s : RemoteSyslogAppender) :
    RemoteSyslogAppender × List SysCall :=
  if s._ipAddr = 0 then
    let pent := env.gethostbyname hist s._relayer
    let c1 := [SysCall.gethostbyname s._relayer pent]
    match pent with
    | some addr =>
      let r := RemoteSyslogAppender.openSocket env (hist ++ c1) { s with _ipAddr := addr }
      (r.1, c1 ++ r.2)
    | none =>
      let ip := env.inet_addr s._relayer
      let pent := env.gethostbyaddr (hist ++ c1) ip
      let c2 := c1 ++ [SysCall.gethostbyaddr ip pent]
      match pent with
      | some addr =>
        let r := RemoteSyslogAppender.openSocket env (hist ++ c2) { s with _ipAddr := addr }
        (r.1, c2 ++ r.2)
      | none => (s, c2)
  else RemoteSyslogAppender.openSocket env hist s

/-- The function `RemoteSyslogAppender::close()`: a live socket is closed and
the handle invalidated; otherwise nothing is done. -/
def RemoteSyslogAppender.close (s : RemoteSyslogAppender) :
    RemoteSyslogAppender × List SysCall :=
  if IS_VALID_SOCKET s._socket then
    ({ s with _socket := INVALID_SOCKET }, [SysCall.closesocket s._socket])
  else (s, [])

/-- The function `RemoteSyslogAppender::reopen()`: `close(); open(); return
true;`. -/
def RemoteSyslogAppender.reopen (env : Env) (hist : List SysCall) (s : RemoteSyslogAppender) :
    Bool × RemoteSyslogAppender × List SysCall :=
  let r1 := s.close
  let r2 := r1.1.open env (hist ++ r1.2)
  (true, r2.1, r1.2 ++ r2.2)

/-- The constructor of `RemoteSyslogAppender`: the member initialisers, then
`open()`. -/
def RemoteSyslogAppender.construct (env : Env) (hist : List SysCall)
    (name syslogName relayer : String) (facility portNumber : Int) (tcp : Bool) :
    RemoteSyslogAppender × List SysCall :=
  let s : RemoteSyslogAppender :=
    { name := name
      _syslogName := syslogName
      _relayer := relayer
      _facility := if facility = -1 then LOG_USER else facility
      _portNumber := if portNumber = -1 then 514 else portNumber
      _socket := INVALID_SOCKET
      _ipAddr := 0
      _tcp := tcp }
  s.open env hist

/-- The wire buffer `buf` of `_append` after `sprintf (buf, "<%d>",
priority)` and `memcpy (buf + preambleLength, message.data(),
messageLength)`. -/
def wireBuffer (priority : Int) (message : Bytes) : Bytes :=
  let buf := newBuf (message.length + 16)
  let preamble := sprintfPreamble priority
  let buf := writeAt buf 0 (preamble ++ [NUL])
  writeAt buf preamble.length message

/-- The length token of the stream transport: the text that
`sprintf(octet_framing, "%u ", (unsigned int)(messageLength +
preambleLength))` produces. -/
def octetFraming (messageLength : Nat) (preambleLength : Int) : Bytes :=
  sprintfOctetFraming (toUInt32 (messageLength + preambleLength))

/-- The length `(int)messageLength + preambleLength` given to the second
`send` of the stream transport (a sum of 32-bit `int`s). -/
def streamLength (messageLength : Nat) (preambleLength : Int) : Int :=
  wrap32 (wrap32 messageLength + preambleLength)

/-- The first statement of the body of the loop `for (int attempt = 0;
attempt < 3; attempt++)` of `_append`: `if (!IS_VALID_SOCKET(_socket))`
create a stream socket and connect it, closing it when `connect` fails.
`ip` and `port` are the fields of `sain`. -/
def RemoteSyslogAppender.streamConnect (env : Env) (hist : List SysCall)
    (s : RemoteSyslogAppender) (ip port : Nat) : RemoteSyslogAppender × List SysCall :=
  if !IS_VALID_SOCKET s._socket then
    let fd := env.socket hist SockType.SOCK_STREAM
    let c := [SysCall.socket SockType.SOCK_STREAM fd]
    if IS_VALID_SOCKET fd then
      let ret := env.connect (hist ++ c) fd ip port
      let c := c ++ [SysCall.connect fd ip port ret]
      if ret < 0 then
        ({ s with _socket := INVALID_SOCKET }, c ++ [SysCall.closesocket fd])
      else ({ s with _socket := fd }, c)
    else ({ s with _socket := fd }, c)
  else (s, [])

/-- The second statement of the body of the loop: `if
(IS_VALID_SOCKET(_socket))` write the length token, then the buffer;
whether `break` was reached, the new state and the system calls made. -/
def RemoteSyslogAppender.streamWrite (env : Env) (hist : List SysCall)
    (s : RemoteSyslogAppender) (buf : Bytes) (messageLength : Nat) (preambleLength : Int) :
    Bool × RemoteSyslogAppender × List SysCall :=
  if IS_VALID_SOCKET s._socket then
    let octet_framing := octetFraming messageLength preambleLength
    let octet_framing_length : Int := octet_framing.length
    let len : Int := streamLength messageLength preambleLength
    let data1 := octet_framing.take (toSizeT octet_framing_length)
    let ret1 := env.send hist s._socket data1
    let c := [SysCall.send s._socket data1 ret1]
    if ret1 = octet_framing_length then
      let data2 := buf.take (toSizeT len)
      let ret2 := env.send (hist ++ c) s._socket data2
      let c := c ++ [SysCall.send s._socket data2 ret2]
      if ret2 = len then (true, s, c)
      else (false, { s with _socket := INVALID_SOCKET }, c ++ [SysCall.closesocket s._socket])
    else (false, { s with _socket := INVALID_SOCKET }, c ++ [SysCall.closesocket s._socket])
  else (false, s, [])

/-- One iteration of the loop `for (int attempt = 0; attempt < 3;
attempt++)` of `_append`: whether the iteration reached `break`, the new
state and the system calls made. -/
def RemoteSyslogAppender.streamAttempt (env : Env) (hist : List SysCall)
    (s : RemoteSyslogAppender) (ip port : Nat) (buf : Bytes)
    (messageLength : Nat) (preambleLength : Int) :
    Bool × RemoteSyslogAppender × List SysCall :=
  let r := s.streamConnect env hist ip port
  let w := r.1.streamWrite env (hist ++ r.2) buf messageLength preambleLength
  (w.1, w.2.1, r.2 ++ w.2.2)

/-- The loop `for (int attempt = 0; attempt < 3; attempt++)` of `_append`
with `remaining` iterations left: the new state, the system calls made and
the number of iterations run. -/
def RemoteSyslogAppender.streamLoop (env : Env) (ip port : Nat) (buf : Bytes)
    (messageLength : Nat) (preambleLength : Int) :
    Nat → List SysCall → RemoteSyslogAppender → RemoteSyslogAppender × List SysCall × Nat
  | 0, _, s => (s, [], 0)
  | remaining + 1, hist, s =>
    let r := s.streamAttempt env hist ip port buf messageLength preambleLength
    if r.1 then (r.2.1, r.2.2, 1)
    else
      let r2 := RemoteSyslogAppender.streamLoop env ip port buf messageLength preambleLength
        remaining (hist ++ r.2.2) r.2.1
      (r2.1, r.2.2 ++ r2.2.1, r2.2.2 + 1)

/-- The loop `while (messageLength > 0)` of `_append` (datagram transport):
the `sendto` calls made, or `none` when `fuel` iterations do not end the
loop. The subtraction `messageLength -= (900 - preambleLength)` is exact on
the natural numbers: it is run only when `preambleLength + messageLength >
900`, and `preambleLength` is at most 13. -/
def RemoteSyslogAppender.datagramLoop (env : Env) (fd : Int) (ip port : Nat)
    (preambleLength : Nat) :
    Nat → List SysCall → Bytes → Nat → Option (List SysCall)
  | 0, _, _, messageLength => if messageLength > 0 then none else some []
  | fuel + 1, hist, buf, messageLength =>
    if messageLength > 0 then
      if preambleLength + messageLength > 900 then
        let data := buf.take 900
        let c := SysCall.sendto fd data ip port (env.sendto hist fd data ip port)
        let messageLength := messageLength - (900 - preambleLength)
        let buf := memmove buf preambleLength 900 messageLength
        (RemoteSyslogAppender.datagramLoop env fd ip port preambleLength
          fuel (hist ++ [c]) buf messageLength).map (fun cs => c :: cs)
      else
        let data := buf.take (toSizeT (wrap32 (preambleLength + wrap32 messageLength)))
        some [SysCall.sendto fd data ip port (env.sendto hist fd data ip port)]
    else some []

/-- The value `int priority = _facility + toSyslogPriority(event.priority)`
of `_append` (an addition of 32-bit `int`s). -/
def RemoteSyslogAppender.wirePriority (s : RemoteSyslogAppender) (event : LoggingEvent) : Int :=
  wrap32 (s._facility + toSyslogPriority event.priority)

/-- The outcome of a call of `_append`: the new state, the system calls
made, in order, and the number of iterations of the retry loop that were
run (0 for the datagram transport). -/
structure AppendResult where
  state : RemoteSyslogAppender
  calls : List SysCall
  attempts : Nat

/-- The function `RemoteSyslogAppender::_append`. The result is `none` only
when the datagram loop does not end within `messageLength` iterations. -/
def RemoteSyslogAppender._append (env : Env) (hist : List SysCall)
    (s : RemoteSyslogAppender) (event : LoggingEvent) : Option AppendResult :=
  let message := event.formatted
  let messageLength := message.length
  let priority := s.wirePriority event
  let preambleLength := (sprintfPreamble priority).length
  let buf := wireBuffer priority message
  let port := htons s._portNumber
  let ip := s._ipAddr
  if s._tcp then
    let r := s.streamLoop env ip port buf messageLength preambleLength 3 hist
    some { state := r.1, calls := r.2.1, attempts := r.2.2 }
  else
    (RemoteSyslogAppender.datagramLoop env s._socket ip port preambleLength
      messageLength hist buf messageLength).map
      (fun cs => { state := s, calls := cs, attempts := 0 })

/-! ## Concrete inputs used by the examples -/

/-- An appender with facility `F` and the default port, not yet opened. -/
def sampleAppender (F : Int) (tcp : Bool) : RemoteSyslogAppender :=
  { name := "remote"
    _syslogName := "app"
    _relayer := "loghost"
    _facility := F
    _portNumber := 514
    _socket := INVALID_SOCKET
    _ipAddr := 0
    _tcp := tcp }

/-- The event of the scenarios of the specification: text "hello", level 300
(error). -/
def helloEvent : LoggingEvent := { formatted := "hello".toList, priority := 300 }

/-- A transport that resolves every host, creates socket 3, connects and
accepts every write in full. -/
def fullEnv : Env :=
  { gethostbyname := fun _ _ => some 16777343
    inet_addr := fun _ => 0
    gethostbyaddr := fun _ _ => none
    socket := fun _ _ => 3
    connect := fun _ _ _ _ => 0
    send := fun _ _ data => data.length
    sendto := fun _ _ data _ _ => data.length }

/-- A stream appender with facility 8 whose connection (socket 3) is live. -/
def liveStreamAppender : RemoteSyslogAppender :=
  { sampleAppender 8 true with _socket := 3, _ipAddr := 16777343 }

/-- The handle an iteration of the retry loop works with when it starts in
state `s` after the calls `hist`: the live socket, or else the result of
`socket()`. -/
def RemoteSyslogAppender.attemptSocket (env : Env) (hist : List SysCall)
    (s : RemoteSyslogAppender) : Int :=
  if IS_VALID_SOCKET s._socket then s._socket else env.socket hist SockType.SOCK_STREAM

/-- The result of the `connect` call of such an iteration. -/
def RemoteSyslogAppender.attemptConnect (env : Env) (hist : List SysCall)
    (s : RemoteSyslogAppender) (ip port : Nat) : Int :=
  env.connect (hist ++ [SysCall.socket SockType.SOCK_STREAM (s.attemptSocket env hist)])
    (s.attemptSocket env hist) ip port

/-- The system calls that precede the writes of an iteration whose connection
is established: none when the socket is live, else `socket()` and
`connect()`. -/
def RemoteSyslogAppender.attemptSetup (env : Env) (hist : List SysCall)
    (s : RemoteSyslogAppender) (ip port : Nat) : List SysCall :=
  if IS_VALID_SOCKET s._socket then []
  else [SysCall.socket SockType.SOCK_STREAM (s.attemptSocket env hist),
    SysCall.connect (s.attemptSocket env hist) ip port (s.attemptConnect env hist ip port)]

/-- The transport outcome "the attempt connects and accepts both writes in
full", for an iteration of the retry loop that starts in state `s` after
the calls `hist`: the connection is live already, or `socket()` gives a
valid handle and `connect` does not fail; then the write of the length token
returns its length and the write of the buffer returns the length asked
for. -/
def RemoteSyslogAppender.attemptSucceeds (env : Env) (hist : List SysCall)
    (s : RemoteSyslogAppender) (ip port : Nat) (buf : Bytes)
    (messageLength : Nat) (preambleLength : Int) : Prop :=
  (IS_VALID_SOCKET s._socket = true ∨
    (IS_VALID_SOCKET (s.attemptSocket env hist) = true ∧ 0 ≤ s.attemptConnect env hist ip port)) ∧
  env.send (hist ++ s.attemptSetup env hist ip port) (s.attemptSocket env hist)
    (octetFraming messageLength preambleLength)
    = ((octetFraming messageLength preambleLength).length : Int) ∧
  env.send (hist ++ s.attemptSetup env hist ip port ++
      [SysCall.send (s.attemptSocket env hist) (octetFraming messageLength preambleLength)
        ((octetFraming messageLength preambleLength).length : Int)])
    (s.attemptSocket env hist) (buf.take (toSizeT (streamLength messageLength preambleLength)))
    = streamLength messageLength preambleLength

/-- The calls made so far and the state when iteration `i` (counted from 0)
of the retry loop starts, the loop having started in state `s` after the
calls `hist` and no earlier iteration having reached `break`. -/
def RemoteSyslogAppender.attemptStart (env : Env) (ip port : Nat) (buf : Bytes)
    (messageLength : Nat) (preambleLength : Int) :
    Nat → List SysCall → RemoteSyslogAppender → List SysCall × RemoteSyslogAppender
  | 0, hist, s => (hist, s)
  | i + 1, hist, s =>
    let r := s.streamAttempt env hist ip port buf messageLength preambleLength
    RemoteSyslogAppender.attemptStart env ip port buf messageLength preambleLength
      i (hist ++ r.2.2) r.2.1

/-- The transport outcome of iteration `i` (counted from 0) of the retry
loop of the call `_append(event)` made in state `s` after the calls `hist`:
the iteration connects and both its writes are accepted in full. -/
def RemoteSyslogAppender.attemptSucceedsAt (env : Env) (hist : List SysCall)
    (s : RemoteSyslogAppender) (event : LoggingEvent) (i : Nat) : Prop :=
  let buf := wireBuffer (s.wirePriority event) event.formatted
  let M := event.formatted.length
  let P : Int := (sprintfPreamble (s.wirePriority event)).length
  let start := RemoteSyslogAppender.attemptStart env s._ipAddr (htons s._portNumber) buf M P i hist s
  start.2.attemptSucceeds env start.1 s._ipAddr (htons s._portNumber) buf M P

instance RemoteSyslogAppender.decAttemptSucceeds (env : Env) (hist : List SysCall)
    (s : RemoteSyslogAppender) (ip port : Nat) (buf : Bytes)
    (messageLength : Nat) (preambleLength : Int) :
    Decidable (s.attemptSucceeds env hist ip port buf messageLength preambleLength) := by
  unfold RemoteSyslogAppender.attemptSucceeds
  infer_instance

instance RemoteSyslogAppender.decAttemptSucceedsAt (env : Env) (hist : List SysCall)
    (s : RemoteSyslogAppender) (event : LoggingEvent) (i : Nat) :
    Decidable (s.attemptSucceedsAt env hist event i) := by
  unfold RemoteSyslogAppender.attemptSucceedsAt
  infer_instance

/-- A transport whose `connect` fails until six system calls have been made
(the first two attempts of a call from a fresh history) and which accepts
every write in full. -/
def flakyEnv : Env :=
  { fullEnv with connect := fun hist _ _ _ => if hist.length < 6 then -1 else 0 }

/-- The datagrams handed to `sendto` by a list of system calls, in order. -/
def datagramsOf : List SysCall → List Bytes
  | [] => []
  | SysCall.sendto _ data _ _ _ :: cs => data :: datagramsOf cs
  | _ :: cs => datagramsOf cs

/-- A datagram appender with facility 8 whose socket (3) is open. -/
def openDatagramAppender : RemoteSyslogAppender :=
  { sampleAppender 8 false with _socket := 3, _ipAddr := 16777343 }

/-- A message of 1000 bytes: the digits 0 to 9, a hundred times over. -/
def thousandBytes : Bytes := (List.range 1000).map (fun i => Nat.digitChar (i % 10))

/-- The event of scenario C: a message of 1000 bytes at level 300 (error). -/
def thousandEvent : LoggingEvent := { formatted := thousandBytes, priority := 300 }

/-- A transport on which no host can be resolved (`gethostbyname` and
`gethostbyaddr` return NULL), but which creates socket 3, connects it
whatever the address and accepts every write in full. -/
def noHostEnv : Env :=
  { fullEnv with gethostbyname := fun _ _ => none, gethostbyaddr := fun _ _ => none }

/-- The bytes that a list of system calls puts on sockets: for each `send`
and `sendto` on a valid handle, the handle and the bytes handed over. A
call on an invalid handle sends nothing. -/
def wireTraffic : List SysCall → List (Int × Bytes)
  | [] => []
  | SysCall.send fd data _ :: cs =>
    if IS_VALID_SOCKET fd then (fd, data) :: wireTraffic cs else wireTraffic cs
  | SysCall.sendto fd data _ _ _ :: cs =>
    if IS_VALID_SOCKET fd then (fd, data) :: wireTraffic cs else wireTraffic cs
  | _ :: cs => wireTraffic cs

/-- Whether a system call is a `send`. -/
def SysCall.isSend : SysCall → Bool
  | SysCall.send _ _ _ => true
  | _ => false

/-- The function `create_remote_syslog_appender`: `facility` and
`port_number` start at -1, the parameters are looked up, and the appender
is constructed from the five values. The class `FactoryParams` is not part
of the source file, so what the look-up stores is a parameter: the three
required strings, and for each optional parameter `some v` when the look-up
stores `v` and `none` when it leaves the variable as it is. The argument
`tcp` of the constructor is not passed by the function; its default value is
declared in a header that is not part of the source file either, and is a
parameter too. -/
def create_remote_syslog_appender (env : Env) (hist : List SysCall)
    (name syslog_name relayer : String) (facility port_number : Option Int) (tcp : Bool) :
    RemoteSyslogAppender × List SysCall :=
  RemoteSyslogAppender.construct env hist name syslog_name relayer
    (facility.getD (-1)) (port_number.getD (-1)) tcp

/-- Whether a system call is a host resolution call. -/
def SysCall.isResolve : SysCall → Bool
  | SysCall.gethostbyname _ _ => true
  | SysCall.gethostbyaddr _ _ => true
  | _ => false

/-- An appender whose address is resolved, with an open datagram socket
when `tcp` is false and no socket yet when it is true. -/
def resolvedAppender (tcp : Bool) : RemoteSyslogAppender :=
  { sampleAppender 8 tcp with _socket := if tcp then INVALID_SOCKET else 3, _ipAddr := 16777343 }

/-- Iteration `i` (counted from 0) of the retry loop of the call
`_append(event)` made in state `s` after the calls `hist`, no earlier
iteration having reached `break`: whether it reaches `break`, the state it
leaves and the system calls it makes. -/
def RemoteSyslogAppender.attemptAt (env : Env) (hist : List SysCall)
    (s : RemoteSyslogAppender) (event : LoggingEvent) (i : Nat) :
    Bool × RemoteSyslogAppender × List SysCall :=
  let buf := wireBuffer (s.wirePriority event) event.formatted
  let M := event.formatted.length
  let P : Int := (sprintfPreamble (s.wirePriority event)).length
  let start := RemoteSyslogAppender.attemptStart env s._ipAddr (htons s._portNumber) buf M P i hist s
  start.2.streamAttempt env start.1 s._ipAddr (htons s._portNumber) buf M P

/-- The handle that iteration `i` of the retry loop works with: the socket
that is live when the iteration starts, or else the result of its
`socket()` call. -/
def RemoteSyslogAppender.attemptSocketAt (env : Env) (hist : List SysCall)
    (s : RemoteSyslogAppender) (event : LoggingEvent) (i : Nat) : Int :=
  let buf := wireBuffer (s.wirePriority event) event.formatted
  let M := event.formatted.length
  let P : Int := (sprintfPreamble (s.wirePriority event)).length
  let start := RemoteSyslogAppender.attemptStart env s._ipAddr (htons s._portNumber) buf M P i hist s
  start.2.attemptSocket env start.1

/-- Whether the length token of the stream transport and its terminating
NUL fit in the array `char octet_framing[10]` that `sprintf` writes them
to. -/
def octetFramingFits (messageLength : Nat) (preambleLength : Int) : Prop :=
  (octetFraming messageLength preambleLength).length + 1 ≤ 10

instance decOctetFramingFits (messageLength : Nat) (preambleLength : Int) :
    Decidable (octetFramingFits messageLength preambleLength) := by
  unfold octetFramingFits
  infer_instance

/-- What an access to `buf` in the datagram loop is: the read of the bytes
that `sendto` sends, or the read or the write of a `memmove`. -/
inductive AccessKind where
  | sendRead
  | moveRead
  | moveWrite
  deriving DecidableEq, Repr

/-- An access to the bytes `offset`, ..., `offset + length - 1` of `buf`. -/
structure MemAccess where
  kind : AccessKind
  offset : Nat
  length : Nat
  deriving DecidableEq, Repr

/-- The accesses to `buf` that the loop `while (messageLength > 0)` of
`_append` makes, in order, with the control flow of `datagramLoop`:
`sendto(_socket, buf, 900, ...)` reads 900 bytes from offset 0,
`memmove(buf + preambleLength, buf + 900, messageLength)` reads from offset
900 and writes from offset `preambleLength`, and the last `sendto` reads
`preambleLength + (int)messageLength` bytes from offset 0. The result is
`none` when `fuel` iterations do not end the loop. -/
def RemoteSyslogAppender.datagramAccesses (preambleLength : Nat) :
    Nat → Nat → Option (List MemAccess)
  | 0, messageLength => if messageLength > 0 then none else some []
  | fuel + 1, messageLength =>
    if messageLength > 0 then
      if preambleLength + messageLength > 900 then
        let messageLength := messageLength - (900 - preambleLength)
        (RemoteSyslogAppender.datagramAccesses preambleLength fuel messageLength).map
          (fun as =>
            { kind := AccessKind.sendRead, offset := 0, length := 900 }
            :: { kind := AccessKind.moveRead, offset := 900, length := messageLength }
            :: { kind := AccessKind.moveWrite, offset := preambleLength, length := messageLength }
            :: as)
      else
        some [{ kind := AccessKind.sendRead, offset := 0,
                length := toSizeT (wrap32 (preambleLength + wrap32 messageLength)) }]
    else some []

/-- The effect of one system call on the list of the handles that are
open: `socket()` adds the handle it returns when that is valid,
`closesocket` removes the handle it is given. -/
def liveStep (live : List Int) : SysCall → List Int
  | SysCall.socket _ ret => if IS_VALID_SOCKET ret then ret :: live else live
  | SysCall.closesocket fd => live.erase fd
  | _ => live

/-- The handles that are open after the system calls `calls`, `live` being
the ones open before. -/
def liveAfter (live : List Int) (calls : List SysCall) : List Int :=
  calls.foldl liveStep live

/-- The socket handles that the system calls `calls` have created and not
closed. -/
def liveSockets (calls : List SysCall) : List Int := liveAfter [] calls

/-- The states that an appender can be in, with the system calls it has
made since the start of its construction: the state after construction, and
every state reached from such a state by one of the public operations
`append`, `close` and `reopen`. -/
inductive Reachable (env : Env) : List SysCall → RemoteSyslogAppender → Prop where
  | construct (name syslogName relayer : String) (facility portNumber : Int) (tcp : Bool) :
    Reachable env
      (RemoteSyslogAppender.construct env [] name syslogName relayer facility portNumber tcp).2
      (RemoteSyslogAppender.construct env [] name syslogName relayer facility portNumber tcp).1
  | append (hist : List SysCall) (s : RemoteSyslogAppender) (event : LoggingEvent)
    (r : AppendResult) :
    Reachable env hist s → s._append env hist event = some r →
    Reachable env (hist ++ r.calls) r.state
  | close (hist : List SysCall) (s : RemoteSyslogAppender) :
    Reachable env hist s → Reachable env (hist ++ s.close.2) s.close.1
  | reopen (hist : List SysCall) (s : RemoteSyslogAppender) :
    Reachable env hist s →
    Reachable env (hist ++ (s.reopen env hist).2.2) (s.reopen env hist).2.1

/-- The single-socket invariant: the open handles are the valid handle
stored in `_socket`, or none when `_socket` is invalid. -/
def SingleSocket (live : List Int) (s : RemoteSyslogAppender) : Prop :=
  live = if IS_VALID_SOCKET s._socket then [s._socket] else []

/-! # Properties -/

/-! ## Arithmetic helpers -/

theorem wrap32_of_range (x : Int) (h1 : INT_MIN ≤ x) (h2 : x ≤ INT_MAX) : wrap32 x = x := by
  unfold wrap32
  unfold INT_MIN at h1
  unfold INT_MAX at h2
  omega

theorem wrap32_range (x : Int) : INT_MIN ≤ wrap32 x ∧ wrap32 x ≤ INT_MAX := by
  unfold wrap32 INT_MIN INT_MAX
  omega

theorem tdiv_hundred (x : Int) :
    (0 ≤ x ∧ Int.tdiv x 100 = x / 100) ∨ (x < 0 ∧ Int.tdiv x 100 = -((-x) / 100)) := by
  rcases le_or_lt 0 x with h | h
  · exact Or.inl ⟨h, Int.tdiv_eq_ediv h (by decide)⟩
  · refine Or.inr ⟨h, ?_⟩
    have h1 : Int.tdiv (-(-x)) 100 = -(Int.tdiv (-x) 100) := Int.neg_tdiv _ _
    rw [neg_neg] at h1
    rw [h1, Int.tdiv_eq_ediv (by omega) (by decide)]

/-! ## toSyslogPriority -/

theorem priorities_getD (q : Int) (h0 : 0 ≤ q) (h7 : q ≤ 7) :
    priorities.getD q.toNat 0 = q := by
  obtain ⟨n, rfl⟩ := Int.eq_ofNat_of_zero_le h0
  have hn : n ≤ 7 := by omega
  interval_cases n <;> rfl

/-- The table look-up of `toSyslogPriority` is a clamp of the quotient. -/
theorem toSyslogPriority_eq_clamp (L : Int) :
    toSyslogPriority L = max 0 (min 7 (Int.tdiv (wrap32 (L + 1)) 100)) := by
  unfold toSyslogPriority
  simp only []
  split_ifs with h1 h2
  · simp [LOG_EMERG]; omega
  · simp [LOG_DEBUG]; omega
  · rw [priorities_getD _ (by omega) (by omega)]; omega

theorem toSyslogPriority_bounds (L : Int) :
    0 ≤ toSyslogPriority L ∧ toSyslogPriority L ≤ 7 := by
  rw [toSyslogPriority_eq_clamp]
  omega

/-- C1: for every level `L` (every integer, so every value of the 32-bit
`Priority::Value`, the smallest and the largest included)
`toSyslogPriority L` is defined and lies in the range 0..7. The increment of
the source is taken with two's complement wrap-around. -/
theorem toSyslogPriority_range (L : Int) :
    0 ≤ toSyslogPriority L ∧ toSyslogPriority L ≤ 7 := by
  rw [toSyslogPriority_eq_clamp]
  rcases tdiv_hundred (wrap32 (L + 1)) with ⟨_, h⟩ | ⟨_, h⟩ <;> rw [h] <;> omega

/-- Below the largest `int` the mapping is monotone. -/
theorem toSyslogPriority_mono_below_max (L1 L2 : Int) (h : L1 ≤ L2)
    (h1 : INT_MIN ≤ L1) (h2 : L2 < INT_MAX) :
    toSyslogPriority L1 ≤ toSyslogPriority L2 := by
  rw [toSyslogPriority_eq_clamp, toSyslogPriority_eq_clamp]
  unfold INT_MIN at h1
  unfold INT_MAX at h2
  rw [wrap32_of_range _ (by unfold INT_MIN; omega) (by unfold INT_MAX; omega),
    wrap32_of_range _ (by unfold INT_MIN; omega) (by unfold INT_MAX; omega)]
  rcases tdiv_hundred (L1 + 1) with ⟨a, b⟩ | ⟨a, b⟩ <;>
  rcases tdiv_hundred (L2 + 1) with ⟨c, d⟩ | ⟨c, d⟩ <;> rw [b, d] <;> omega

/-- C2: the code at the failing input. The levels 2147483646 and 2147483647
are values of the 32-bit `Priority::Value` in increasing order, but the
first maps to 7 (debug) and the second, whose increment overflows, to 0
(emergency): `toSyslogPriority` is not monotone on the whole type. -/
theorem toSyslogPriority_not_monotone_at_max :
    toSyslogPriority 2147483646 = 7 ∧ toSyslogPriority 2147483647 = 0 ∧
    ¬ (∀ L1 L2 : Int, INT_MIN ≤ L1 → L1 ≤ L2 → L2 ≤ INT_MAX →
        toSyslogPriority L1 ≤ toSyslogPriority L2) := by
  refine ⟨by decide, by decide, fun h => ?_⟩
  have := h 2147483646 2147483647 (by decide) (by decide) (by decide)
  revert this
  decide

/-- Below the largest `int` the code computes the reference value. -/
theorem toSyslogPriority_eq_ref_below_max (L : Int) (h1 : INT_MIN ≤ L) (h2 : L < INT_MAX) :
    toSyslogPriority L = mapSeverityRef L := by
  rw [toSyslogPriority_eq_clamp]
  unfold INT_MIN at h1
  unfold INT_MAX at h2
  rw [wrap32_of_range _ (by unfold INT_MIN; omega) (by unfold INT_MAX; omega)]
  rfl

/-- The examples of the specification: 300 gives 3, 98 gives 0, 99 gives 1,
699 gives 7. -/
theorem toSyslogPriority_examples :
    toSyslogPriority 300 = 3 ∧ toSyslogPriority 98 = 0 ∧
    toSyslogPriority 99 = 1 ∧ toSyslogPriority 699 = 7 := by
  decide

/-- C3: the code at the failing input. For the largest level of the 32-bit
type the reference value `clamp((L + 1) / 100, 0, 7)` is 7, while
`toSyslogPriority` returns 0: the increment overflows before the division. -/
theorem toSyslogPriority_differs_from_ref_at_max :
    mapSeverityRef 2147483647 = 7 ∧ toSyslogPriority 2147483647 = 0 ∧
    ¬ (∀ L : Int, INT_MIN ≤ L → L ≤ INT_MAX → toSyslogPriority L = mapSeverityRef L) := by
  refine ⟨by decide, by decide, fun h => ?_⟩
  have := h 2147483647 (by decide) (by decide)
  revert this
  decide

/-! ## Decimal formatting and the wire buffer -/

theorem decimalDigits_length_le (fuel : Nat) : ∀ (n k : Nat), n < 10 ^ k → 0 < k →
    (decimalDigits fuel n).length ≤ k := by
  induction fuel with
  | zero => intro n k _ _; simp [decimalDigits]
  | succ f ih =>
    intro n k hn hk
    unfold decimalDigits
    split_ifs with h
    · simpa using hk
    · obtain ⟨j, rfl⟩ : ∃ j, k = j + 1 := ⟨k - 1, by omega⟩
      have hj : 0 < j := by
        rcases Nat.eq_zero_or_pos j with h0 | h0
        · subst h0; simp at hn; omega
        · exact h0
      have : n / 10 < 10 ^ j := by
        rw [Nat.div_lt_iff_lt_mul (by decide)]
        rw [pow_succ] at hn
        exact hn
      have := ih (n / 10) j this hj
      simp
      omega

theorem decimalDigits_length_pos (fuel n : Nat) : 0 < (decimalDigits (fuel + 1) n).length := by
  unfold decimalDigits
  split_ifs <;> simp

theorem fmtUnsigned_length_le (n k : Nat) (hn : n < 10 ^ k) (hk : 0 < k) :
    (fmtUnsigned n).length ≤ k := decimalDigits_length_le _ n k hn hk

theorem fmtUnsigned_length_pos (n : Nat) : 0 < (fmtUnsigned n).length :=
  decimalDigits_length_pos n n

theorem fmtInt_length (v : Int) (h1 : INT_MIN ≤ v) (h2 : v ≤ INT_MAX) :
    1 ≤ (fmtInt v).length ∧ (fmtInt v).length ≤ 11 := by
  unfold INT_MIN at h1
  unfold INT_MAX at h2
  unfold fmtInt
  split_ifs with h
  · have := fmtUnsigned_length_le (-v).toNat 10 (by norm_num; omega) (by decide)
    simp
    omega
  · have := fmtUnsigned_length_le v.toNat 10 (by norm_num; omega) (by decide)
    have := fmtUnsigned_length_pos v.toNat
    omega

theorem sprintfPreamble_length (p : Int) (h1 : INT_MIN ≤ p) (h2 : p ≤ INT_MAX) :
    3 ≤ (sprintfPreamble p).length ∧ (sprintfPreamble p).length ≤ 13 := by
  have := fmtInt_length p h1 h2
  unfold sprintfPreamble
  simp
  omega

theorem wireBuffer_eq (p : Int) (message : Bytes) (h : (sprintfPreamble p).length ≤ 15) :
    wireBuffer p message =
      sprintfPreamble p ++ message ++ List.replicate (16 - (sprintfPreamble p).length) NUL := by
  unfold wireBuffer newBuf writeAt
  simp only [List.take_zero, List.nil_append, zero_add, List.drop_replicate, List.length_append,
    List.length_singleton, List.append_assoc, List.singleton_append]
  rw [← List.replicate_succ]
  rw [List.take_append_of_le_length (le_refl _), List.take_length]
  rw [List.drop_append_eq_append_drop]
  simp only [List.drop_replicate, List.append_assoc]
  rw [List.drop_of_length_le (by omega)]
  simp only [List.nil_append]
  congr 3
  omega

theorem toDigitsCore_eq_decimalDigits (fuel : Nat) : ∀ (n : Nat) (acc : List Char), n < fuel →
    Nat.toDigitsCore 10 fuel n acc = decimalDigits fuel n ++ acc := by
  induction fuel with
  | zero => intro n acc h; omega
  | succ f ih =>
    intro n acc h
    unfold Nat.toDigitsCore decimalDigits
    by_cases h10 : n < 10
    · have : n / 10 = 0 := by omega
      have h2 : n % 10 = n := by omega
      simp [this, h10, h2]
    · have : n / 10 ≠ 0 := by omega
      simp only [this, h10, if_false]
      rw [ih _ _ (by omega)]
      simp

theorem fmtUnsigned_eq_toDigits (n : Nat) : fmtUnsigned n = Nat.toDigits 10 n := by
  unfold fmtUnsigned Nat.toDigits
  rw [toDigitsCore_eq_decimalDigits _ _ _ (by omega)]
  simp

theorem fmtInt_eq_toString (v : Int) : String.mk (fmtInt v) = toString v := by
  unfold fmtInt
  cases v with
  | ofNat m =>
    have : ¬ (Int.ofNat m < 0) := by simp
    simp only [this, if_false]
    rw [fmtUnsigned_eq_toDigits]
    rfl
  | negSucc m =>
    have : (Int.negSucc m < 0) := Int.negSucc_lt_zero m
    simp only [this, if_true]
    rw [fmtUnsigned_eq_toDigits]
    rfl

/-! ## The priority preamble -/

/-- C4 (amended): for every facility code `F` and level `L` such that
`F + toSyslogPriority L` is a 32-bit `int` (no overflow of the addition),
the preamble that `_append` writes is exactly the text "<" ++ decimal(F +
toSyslogPriority L) ++ ">" (decimal as printed by `toString`), the wire
buffer is that text followed by the message, and for a second such facility
code `F'` and the same `L` the priority numbers differ by exactly `F' - F`. -/
theorem preamble_is_facility_plus_severity (s : RemoteSyslogAppender) (event : LoggingEvent)
    (F' : Int) (hF : INT_MIN ≤ s._facility)
    (hS : s._facility + toSyslogPriority event.priority ≤ INT_MAX)
    (hF' : INT_MIN ≤ F') (hS' : F' + toSyslogPriority event.priority ≤ INT_MAX) :
    sprintfPreamble (s.wirePriority event) =
      '<' :: (toString (s._facility + toSyslogPriority event.priority)).toList ++ ['>'] ∧
    (∃ pad, wireBuffer (s.wirePriority event) event.formatted =
      ('<' :: (toString (s._facility + toSyslogPriority event.priority)).toList ++ ['>'])
        ++ event.formatted ++ pad) ∧
    ({ s with _facility := F' } : RemoteSyslogAppender).wirePriority event - s.wirePriority event
      = F' - s._facility := by
  have hr := toSyslogPriority_bounds event.priority
  have e1 : s.wirePriority event = s._facility + toSyslogPriority event.priority := by
    unfold RemoteSyslogAppender.wirePriority
    exact wrap32_of_range _ (by omega) hS
  have e2 : ({ s with _facility := F' } : RemoteSyslogAppender).wirePriority event
      = F' + toSyslogPriority event.priority := by
    unfold RemoteSyslogAppender.wirePriority
    exact wrap32_of_range _ (by simp only; omega) hS'
  have e3 : sprintfPreamble (s._facility + toSyslogPriority event.priority) =
      '<' :: (toString (s._facility + toSyslogPriority event.priority)).toList ++ ['>'] := by
    unfold sprintfPreamble
    rw [← fmtInt_eq_toString]
    rfl
  have hlen := sprintfPreamble_length (s._facility + toSyslogPriority event.priority)
    (by omega) hS
  refine ⟨by rw [e1, e3], ?_, by rw [e1, e2]; ring⟩
  refine ⟨List.replicate
    (16 - (sprintfPreamble (s._facility + toSyslogPriority event.priority)).length) NUL, ?_⟩
  rw [e1, wireBuffer_eq _ _ (by omega), e3]

/-- C4, witness: facility 8 and level 300 (severity 3) give the preamble
"<11>". -/
theorem preamble_is_facility_plus_severity_witness :
    INT_MIN ≤ (sampleAppender 8 false)._facility ∧
    (sampleAppender 8 false)._facility + toSyslogPriority helloEvent.priority ≤ INT_MAX ∧
    sprintfPreamble ((sampleAppender 8 false).wirePriority helloEvent) = "<11>".toList :=
  ⟨by decide, by decide,
    (preamble_is_facility_plus_severity (sampleAppender 8 false) helloEvent 16
      (by decide) (by decide) (by decide) (by decide)).1.trans (by decide)⟩

/-- C4, counterexample: with facility code 2147483647 and level 100
(severity 1) the addition overflows and the preamble is "<-2147483648>",
not "<2147483648>"; and against facility code 0 the priority numbers differ
by 2147483649, not by 2147483647. -/
theorem preamble_overflow_counterexample :
    sprintfPreamble ((sampleAppender 2147483647 false).wirePriority ⟨[], 100⟩)
      = "<-2147483648>".toList ∧
    '<' :: (toString ((sampleAppender 2147483647 false)._facility + toSyslogPriority 100)).toList
      ++ ['>'] = "<2147483648>".toList ∧
    (sampleAppender 2147483647 false).wirePriority ⟨[], 100⟩
      - (sampleAppender 0 false).wirePriority ⟨[], 100⟩ ≠ 2147483647 - 0 := by
  decide

/-! ## The stream transport -/

theorem toUInt32_lt (x : Int) : toUInt32 x < 4294967296 := by
  unfold toUInt32
  omega

theorem octetFraming_length (M : Nat) (P : Int) :
    2 ≤ (octetFraming M P).length ∧ (octetFraming M P).length ≤ 11 := by
  unfold octetFraming sprintfOctetFraming
  have h1 := fmtUnsigned_length_le (toUInt32 (M + P)) 10
    (lt_trans (toUInt32_lt _) (by norm_num)) (by decide)
  have h2 := fmtUnsigned_length_pos (toUInt32 (M + P))
  simp only [List.length_append, List.length_singleton]
  omega

theorem octetFraming_take (M : Nat) (P : Int) :
    (octetFraming M P).take (toSizeT ((octetFraming M P).length : Int)) = octetFraming M P := by
  have h := octetFraming_length M P
  have : toSizeT ((octetFraming M P).length : Int) = (octetFraming M P).length := by
    unfold toSizeT
    omega
  rw [this, List.take_length]

theorem not_valid_iff (fd : Int) : IS_VALID_SOCKET fd = false ↔ fd = INVALID_SOCKET := by
  unfold IS_VALID_SOCKET
  simp

theorem invalidate_of_not_valid (s : RemoteSyslogAppender) (h : IS_VALID_SOCKET s._socket = false) :
    ({ s with _socket := INVALID_SOCKET } : RemoteSyslogAppender) = s := by
  rw [not_valid_iff] at h
  cases s
  simp only at h
  subst h
  rfl

/-- The write phase when both writes are accepted in full. -/
theorem streamWrite_ok (env : Env) (hist : List SysCall) (s : RemoteSyslogAppender)
    (buf : Bytes) (M : Nat) (P : Int) (hv : IS_VALID_SOCKET s._socket = true)
    (h1 : env.send hist s._socket (octetFraming M P) = ((octetFraming M P).length : Int))
    (h2 : env.send (hist ++ [SysCall.send s._socket (octetFraming M P)
        ((octetFraming M P).length : Int)]) s._socket (buf.take (toSizeT (streamLength M P)))
      = streamLength M P) :
    s.streamWrite env hist buf M P =
      (true, s, [SysCall.send s._socket (octetFraming M P) ((octetFraming M P).length : Int),
        SysCall.send s._socket (buf.take (toSizeT (streamLength M P))) (streamLength M P)]) := by
  unfold RemoteSyslogAppender.streamWrite
  simp only [hv, if_true, octetFraming_take, h1, h2, List.singleton_append]

/-- The write phase fails exactly when the socket is invalid or a write is
not accepted in full; the socket is then invalid afterwards. -/
theorem streamWrite_fail (env : Env) (hist : List SysCall) (s : RemoteSyslogAppender)
    (buf : Bytes) (M : Nat) (P : Int)
    (h : ¬ (IS_VALID_SOCKET s._socket = true ∧
      env.send hist s._socket (octetFraming M P) = ((octetFraming M P).length : Int) ∧
      env.send (hist ++ [SysCall.send s._socket (octetFraming M P)
        ((octetFraming M P).length : Int)]) s._socket (buf.take (toSizeT (streamLength M P)))
      = streamLength M P)) :
    (s.streamWrite env hist buf M P).1 = false ∧
    (s.streamWrite env hist buf M P).2.1 = { s with _socket := INVALID_SOCKET } := by
  unfold RemoteSyslogAppender.streamWrite
  by_cases hv : IS_VALID_SOCKET s._socket = true
  · simp only [hv, if_true, octetFraming_take]
    by_cases h1 : env.send hist s._socket (octetFraming M P) = ((octetFraming M P).length : Int)
    · simp only [h1, if_true, List.singleton_append]
      have h2 : ¬ env.send (hist ++ [SysCall.send s._socket (octetFraming M P)
          ((octetFraming M P).length : Int)]) s._socket (buf.take (toSizeT (streamLength M P)))
          = streamLength M P := fun h2 => h ⟨hv, h1, h2⟩
      simp only [h2, if_false, and_self]
    · simp only [h1, if_false, and_self]
  · simp only [hv, if_false, Bool.false_eq_true, true_and]
    exact (invalidate_of_not_valid s (by simpa using hv)).symm
theorem streamConnect_live (env : Env) (hist : List SysCall) (s : RemoteSyslogAppender)
    (ip port : Nat) (hv : IS_VALID_SOCKET s._socket = true) :
    s.streamConnect env hist ip port = (s, []) := by
  unfold RemoteSyslogAppender.streamConnect
  simp [hv]

theorem streamConnect_connected (env : Env) (hist : List SysCall) (s : RemoteSyslogAppender)
    (ip port : Nat) (hv : IS_VALID_SOCKET s._socket = false)
    (hfd : IS_VALID_SOCKET (s.attemptSocket env hist) = true)
    (hc : 0 ≤ s.attemptConnect env hist ip port) :
    s.streamConnect env hist ip port =
      ({ s with _socket := s.attemptSocket env hist }, s.attemptSetup env hist ip port) := by
  unfold RemoteSyslogAppender.attemptConnect at hc
  unfold RemoteSyslogAppender.streamConnect RemoteSyslogAppender.attemptSetup
    RemoteSyslogAppender.attemptConnect
  unfold RemoteSyslogAppender.attemptSocket at *
  simp only [hv, Bool.false_eq_true, if_false] at hfd hc ⊢
  simp [hfd, not_lt.mpr hc]

theorem streamConnect_failed (env : Env) (hist : List SysCall) (s : RemoteSyslogAppender)
    (ip port : Nat) (hv : IS_VALID_SOCKET s._socket = false)
    (h : ¬ (IS_VALID_SOCKET (s.attemptSocket env hist) = true ∧
      0 ≤ s.attemptConnect env hist ip port)) :
    (s.streamConnect env hist ip port).1 = s := by
  unfold RemoteSyslogAppender.attemptConnect at h
  unfold RemoteSyslogAppender.streamConnect
  unfold RemoteSyslogAppender.attemptSocket at *
  simp only [hv, Bool.false_eq_true, if_false] at h ⊢
  simp only [Bool.not_false, if_true]
  by_cases hfd : IS_VALID_SOCKET (env.socket hist SockType.SOCK_STREAM) = true
  · have hc : env.connect (hist ++ [SysCall.socket SockType.SOCK_STREAM
        (env.socket hist SockType.SOCK_STREAM)]) (env.socket hist SockType.SOCK_STREAM) ip port < 0 := by
      by_contra hc
      exact h ⟨hfd, not_lt.mp hc⟩
    simp only [hfd, if_true, hc]
    exact invalidate_of_not_valid s hv
  · simp only [hfd, if_false]
    have e : env.socket hist SockType.SOCK_STREAM = INVALID_SOCKET :=
      (not_valid_iff _).mp (by simpa using hfd)
    rw [e]
    exact invalidate_of_not_valid s hv

/-- An iteration whose transport outcome is a success reaches `break`: the
socket is the one connected and the calls end with the two writes. -/
theorem streamAttempt_of_succeeds (env : Env) (hist : List SysCall) (s : RemoteSyslogAppender)
    (ip port : Nat) (buf : Bytes) (M : Nat) (P : Int)
    (h : s.attemptSucceeds env hist ip port buf M P) :
    s.streamAttempt env hist ip port buf M P =
      (true, { s with _socket := s.attemptSocket env hist },
        s.attemptSetup env hist ip port ++
          [SysCall.send (s.attemptSocket env hist) (octetFraming M P)
            ((octetFraming M P).length : Int),
           SysCall.send (s.attemptSocket env hist) (buf.take (toSizeT (streamLength M P)))
            (streamLength M P)]) := by
  obtain ⟨hc, h1, h2⟩ := h
  unfold RemoteSyslogAppender.streamAttempt
  by_cases hv : IS_VALID_SOCKET s._socket = true
  · have efd : s.attemptSocket env hist = s._socket := by
      unfold RemoteSyslogAppender.attemptSocket; simp [hv]
    have eset : s.attemptSetup env hist ip port = [] := by
      unfold RemoteSyslogAppender.attemptSetup; simp [hv]
    rw [efd, eset] at h1 h2
    rw [List.append_nil] at h1 h2
    rw [streamConnect_live env hist s ip port hv, efd, eset]
    simp only [List.append_nil, List.nil_append]
    rw [streamWrite_ok env hist s buf M P hv h1 h2]
  · have hv' : IS_VALID_SOCKET s._socket = false := by simpa using hv
    rcases hc with hc | ⟨hfd, hc⟩
    · exact absurd hc hv
    · rw [streamConnect_connected env hist s ip port hv' hfd hc]
      simp only []
      rw [streamWrite_ok env _ _ buf M P hfd h1 h2]

/-- An iteration whose transport outcome is not a success does not reach
`break` and leaves the socket invalid. -/
theorem streamAttempt_of_not_succeeds (env : Env) (hist : List SysCall)
    (s : RemoteSyslogAppender) (ip port : Nat) (buf : Bytes) (M : Nat) (P : Int)
    (h : ¬ s.attemptSucceeds env hist ip port buf M P) :
    (s.streamAttempt env hist ip port buf M P).1 = false ∧
    (s.streamAttempt env hist ip port buf M P).2.1 = { s with _socket := INVALID_SOCKET } := by
  unfold RemoteSyslogAppender.attemptSucceeds at h
  unfold RemoteSyslogAppender.streamAttempt
  simp only []
  by_cases hv : IS_VALID_SOCKET s._socket = true
  · have efd : s.attemptSocket env hist = s._socket := by
      unfold RemoteSyslogAppender.attemptSocket; simp [hv]
    have eset : s.attemptSetup env hist ip port = [] := by
      unfold RemoteSyslogAppender.attemptSetup; simp [hv]
    rw [efd, eset, List.append_nil] at h
    rw [streamConnect_live env hist s ip port hv]
    simp only [List.append_nil]
    exact streamWrite_fail env hist s buf M P (fun ⟨a, b, c⟩ => h ⟨Or.inl a, b, c⟩)
  · have hv' : IS_VALID_SOCKET s._socket = false := by simpa using hv
    by_cases hc : IS_VALID_SOCKET (s.attemptSocket env hist) = true ∧
        0 ≤ s.attemptConnect env hist ip port
    · rw [streamConnect_connected env hist s ip port hv' hc.1 hc.2]
      simp only []
      exact streamWrite_fail env _ _ buf M P (fun ⟨_, b, c⟩ => h ⟨Or.inr hc, b, c⟩)
    · have hst := streamConnect_failed env hist s ip port hv' hc
      have := streamWrite_fail env (hist ++ (s.streamConnect env hist ip port).2)
        (s.streamConnect env hist ip port).1 buf M P (by rw [hst]; simp [hv'])
      rw [hst] at this ⊢
      exact this
theorem streamLoop_of_succeeds (env : Env) (ip port : Nat) (buf : Bytes) (M : Nat) (P : Int)
    (n : Nat) (hist : List SysCall) (s : RemoteSyslogAppender)
    (h : s.attemptSucceeds env hist ip port buf M P) :
    RemoteSyslogAppender.streamLoop env ip port buf M P (n + 1) hist s =
      ({ s with _socket := s.attemptSocket env hist },
        s.attemptSetup env hist ip port ++
          [SysCall.send (s.attemptSocket env hist) (octetFraming M P)
            ((octetFraming M P).length : Int),
           SysCall.send (s.attemptSocket env hist) (buf.take (toSizeT (streamLength M P)))
            (streamLength M P)], 1) := by
  unfold RemoteSyslogAppender.streamLoop
  rw [streamAttempt_of_succeeds env hist s ip port buf M P h]
  simp

theorem streamLoop_of_not_succeeds (env : Env) (ip port : Nat) (buf : Bytes) (M : Nat) (P : Int)
    (n : Nat) (hist : List SysCall) (s : RemoteSyslogAppender)
    (h : ¬ s.attemptSucceeds env hist ip port buf M P) :
    RemoteSyslogAppender.streamLoop env ip port buf M P (n + 1) hist s =
      ((RemoteSyslogAppender.streamLoop env ip port buf M P n
          (hist ++ (s.streamAttempt env hist ip port buf M P).2.2)
          { s with _socket := INVALID_SOCKET }).1,
       (s.streamAttempt env hist ip port buf M P).2.2 ++
        (RemoteSyslogAppender.streamLoop env ip port buf M P n
          (hist ++ (s.streamAttempt env hist ip port buf M P).2.2)
          { s with _socket := INVALID_SOCKET }).2.1,
       (RemoteSyslogAppender.streamLoop env ip port buf M P n
          (hist ++ (s.streamAttempt env hist ip port buf M P).2.2)
          { s with _socket := INVALID_SOCKET }).2.2 + 1) := by
  have hf := streamAttempt_of_not_succeeds env hist s ip port buf M P h
  conv_lhs => unfold RemoteSyslogAppender.streamLoop
  simp only [hf.1, hf.2, Bool.false_eq_true, if_false]

theorem attemptStart_succ_of_not_succeeds (env : Env) (ip port : Nat) (buf : Bytes) (M : Nat)
    (P : Int) (i : Nat) (hist : List SysCall) (s : RemoteSyslogAppender)
    (h : ¬ s.attemptSucceeds env hist ip port buf M P) :
    RemoteSyslogAppender.attemptStart env ip port buf M P (i + 1) hist s =
      RemoteSyslogAppender.attemptStart env ip port buf M P i
        (hist ++ (s.streamAttempt env hist ip port buf M P).2.2)
        { s with _socket := INVALID_SOCKET } := by
  have hf := streamAttempt_of_not_succeeds env hist s ip port buf M P h
  conv_lhs => unfold RemoteSyslogAppender.attemptStart
  simp only [hf.2]

/-- The loop never runs more iterations than it is given. -/
theorem streamLoop_attempts_le (env : Env) (ip port : Nat) (buf : Bytes) (M : Nat) (P : Int)
    (n : Nat) : ∀ (hist : List SysCall) (s : RemoteSyslogAppender),
    (RemoteSyslogAppender.streamLoop env ip port buf M P n hist s).2.2 ≤ n := by
  induction n with
  | zero => intro hist s; simp [RemoteSyslogAppender.streamLoop]
  | succ n ih =>
    intro hist s
    by_cases h : s.attemptSucceeds env hist ip port buf M P
    · rw [streamLoop_of_succeeds env ip port buf M P n hist s h]
      simp
    · rw [streamLoop_of_not_succeeds env ip port buf M P n hist s h]
      simp only [add_le_add_iff_right]
      exact ih _ _

/-- When no iteration succeeds the loop runs them all and leaves the socket
invalid; nothing else of the state changes. -/
theorem streamLoop_all_fail (env : Env) (ip port : Nat) (buf : Bytes) (M : Nat) (P : Int)
    (n : Nat) : ∀ (hist : List SysCall) (s : RemoteSyslogAppender),
    (∀ i, i < n → ¬ (RemoteSyslogAppender.attemptStart env ip port buf M P i hist s).2.attemptSucceeds
      env (RemoteSyslogAppender.attemptStart env ip port buf M P i hist s).1 ip port buf M P) →
    (RemoteSyslogAppender.streamLoop env ip port buf M P n hist s).2.2 = n ∧
    (0 < n → (RemoteSyslogAppender.streamLoop env ip port buf M P n hist s).1
      = { s with _socket := INVALID_SOCKET }) := by
  induction n with
  | zero => intro hist s _; simp [RemoteSyslogAppender.streamLoop]
  | succ n ih =>
    intro hist s hall
    have h0 : ¬ s.attemptSucceeds env hist ip port buf M P := hall 0 (Nat.succ_pos n)
    rw [streamLoop_of_not_succeeds env ip port buf M P n hist s h0]
    have hrest := ih (hist ++ (s.streamAttempt env hist ip port buf M P).2.2)
      { s with _socket := INVALID_SOCKET } (by
        intro i hi
        have := hall (i + 1) (Nat.succ_lt_succ hi)
        rw [attemptStart_succ_of_not_succeeds env ip port buf M P i hist s h0] at this
        exact this)
    refine ⟨by simp only [hrest.1], fun _ => ?_⟩
    rcases Nat.eq_zero_or_pos n with hn | hn
    · subst hn
      simp [RemoteSyslogAppender.streamLoop]
    · simp only [hrest.2 hn]

/-- When iteration `k` is the first to succeed the loop runs exactly `k + 1`
iterations; its calls end with the two writes, accepted in full, and the
socket is the one written on. -/
theorem streamLoop_first_success (env : Env) (ip port : Nat) (buf : Bytes) (M : Nat) (P : Int)
    (n : Nat) : ∀ (k : Nat) (hist : List SysCall) (s : RemoteSyslogAppender), k < n →
    (∀ i, i < k → ¬ (RemoteSyslogAppender.attemptStart env ip port buf M P i hist s).2.attemptSucceeds
      env (RemoteSyslogAppender.attemptStart env ip port buf M P i hist s).1 ip port buf M P) →
    (RemoteSyslogAppender.attemptStart env ip port buf M P k hist s).2.attemptSucceeds
      env (RemoteSyslogAppender.attemptStart env ip port buf M P k hist s).1 ip port buf M P →
    (RemoteSyslogAppender.streamLoop env ip port buf M P n hist s).2.2 = k + 1 ∧
    ∃ fd before, IS_VALID_SOCKET fd = true ∧
      (RemoteSyslogAppender.streamLoop env ip port buf M P n hist s).1 = { s with _socket := fd } ∧
      (RemoteSyslogAppender.streamLoop env ip port buf M P n hist s).2.1 = before ++
        [SysCall.send fd (octetFraming M P) ((octetFraming M P).length : Int),
         SysCall.send fd (buf.take (toSizeT (streamLength M P))) (streamLength M P)] := by
  induction n with
  | zero => intro k hist s hk; omega
  | succ n ih =>
    intro k hist s hk hfail hok
    cases k with
    | zero =>
      have h0 : s.attemptSucceeds env hist ip port buf M P := hok
      rw [streamLoop_of_succeeds env ip port buf M P n hist s h0]
      refine ⟨rfl, s.attemptSocket env hist, s.attemptSetup env hist ip port, ?_, rfl, rfl⟩
      rcases h0.1 with hv | hv
      · unfold RemoteSyslogAppender.attemptSocket
        simp [hv]
      · exact hv.1
    | succ k =>
      have h0 : ¬ s.attemptSucceeds env hist ip port buf M P := hfail 0 (Nat.succ_pos k)
      rw [streamLoop_of_not_succeeds env ip port buf M P n hist s h0]
      rw [attemptStart_succ_of_not_succeeds env ip port buf M P k hist s h0] at hok
      obtain ⟨hcount, fd, before, hfd, hst, hcalls⟩ :=
        ih k (hist ++ (s.streamAttempt env hist ip port buf M P).2.2)
          { s with _socket := INVALID_SOCKET } (by omega) (by
            intro i hi
            have := hfail (i + 1) (Nat.succ_lt_succ hi)
            rw [attemptStart_succ_of_not_succeeds env ip port buf M P i hist s h0] at this
            exact this) hok
      refine ⟨by simp only [hcount], fd,
        (s.streamAttempt env hist ip port buf M P).2.2 ++ before, hfd, ?_, ?_⟩
      · simp only [hst]
      · simp only [hcalls, List.append_assoc]

theorem wirePriority_preamble_length (s : RemoteSyslogAppender) (event : LoggingEvent) :
    3 ≤ (sprintfPreamble (s.wirePriority event)).length ∧
    (sprintfPreamble (s.wirePriority event)).length ≤ 13 :=
  sprintfPreamble_length _ (wrap32_range _).1 (wrap32_range _).2

theorem wireBuffer_take (p : Int) (message : Bytes) (h : (sprintfPreamble p).length ≤ 15) :
    (wireBuffer p message).take ((sprintfPreamble p).length + message.length) =
      sprintfPreamble p ++ message := by
  rw [wireBuffer_eq p message h, ← List.length_append]
  exact List.take_left' rfl

/-- Below the capacity of the length token (`M + P` at most 99,999,999) the
token is decimal(M+P) followed by one space, the length of the second write
is `M + P` and its bytes are the preamble followed by the message. -/
theorem stream_frame_in_range (p : Int) (message : Bytes)
    (hp : (sprintfPreamble p).length ≤ 15)
    (hfit : message.length + (sprintfPreamble p).length ≤ 99999999) :
    octetFraming message.length ((sprintfPreamble p).length : Int)
      = fmtUnsigned (message.length + (sprintfPreamble p).length) ++ [' '] ∧
    streamLength message.length ((sprintfPreamble p).length : Int)
      = ((message.length + (sprintfPreamble p).length : Nat) : Int) ∧
    (wireBuffer p message).take
        (toSizeT (streamLength message.length ((sprintfPreamble p).length : Int)))
      = sprintfPreamble p ++ message := by
  have e1 : toUInt32 ((message.length : Int) + ((sprintfPreamble p).length : Int))
      = message.length + (sprintfPreamble p).length := by
    unfold toUInt32; omega
  have e2 : streamLength message.length ((sprintfPreamble p).length : Int)
      = ((message.length + (sprintfPreamble p).length : Nat) : Int) := by
    unfold streamLength wrap32; omega
  have e3 : toSizeT ((message.length + (sprintfPreamble p).length : Nat) : Int)
      = (sprintfPreamble p).length + message.length := by
    unfold toSizeT; omega
  refine ⟨?_, e2, ?_⟩
  · unfold octetFraming sprintfOctetFraming
    rw [e1]
  · rw [e2, e3]
    exact wireBuffer_take p message hp
theorem append_stream (env : Env) (hist : List SysCall) (s : RemoteSyslogAppender)
    (event : LoggingEvent) (htcp : s._tcp = true) :
    s._append env hist event =
      some { state := (s.streamLoop env s._ipAddr (htons s._portNumber)
                (wireBuffer (s.wirePriority event) event.formatted) event.formatted.length
                ((sprintfPreamble (s.wirePriority event)).length : Int) 3 hist).1
             calls := (s.streamLoop env s._ipAddr (htons s._portNumber)
                (wireBuffer (s.wirePriority event) event.formatted) event.formatted.length
                ((sprintfPreamble (s.wirePriority event)).length : Int) 3 hist).2.1
             attempts := (s.streamLoop env s._ipAddr (htons s._portNumber)
                (wireBuffer (s.wirePriority event) event.formatted) event.formatted.length
                ((sprintfPreamble (s.wirePriority event)).length : Int) 3 hist).2.2 } := by
  unfold RemoteSyslogAppender._append
  simp only [htcp, if_true]

/-- Stream framing below the capacity of the length token: when the
connection is live, both writes are accepted in full and the total length
`M + P` is at most 99,999,999, one call of `_append` makes exactly two
writes, decimal(M+P) ++ " " and preamble ++ message, in one attempt. -/
theorem stream_framing_in_range (env : Env) (hist : List SysCall)
    (s : RemoteSyslogAppender) (event : LoggingEvent)
    (htcp : s._tcp = true) (hlive : IS_VALID_SOCKET s._socket = true)
    (hok : s.attemptSucceedsAt env hist event 0)
    (hfit : event.formatted.length + (sprintfPreamble (s.wirePriority event)).length ≤ 99999999) :
    ∃ r, s._append env hist event = some r ∧ r.state = s ∧ r.attempts = 1 ∧
      r.calls =
        [SysCall.send s._socket
          (fmtUnsigned (event.formatted.length + (sprintfPreamble (s.wirePriority event)).length)
            ++ [' '])
          (((fmtUnsigned (event.formatted.length
            + (sprintfPreamble (s.wirePriority event)).length) ++ [' ']).length : Nat) : Int),
         SysCall.send s._socket (sprintfPreamble (s.wirePriority event) ++ event.formatted)
          ((event.formatted.length + (sprintfPreamble (s.wirePriority event)).length : Nat)
            : Int)] := by
  have hP := wirePriority_preamble_length s event
  obtain ⟨e1, e2, e3⟩ := stream_frame_in_range (s.wirePriority event) event.formatted
    (by omega) hfit
  have efd : s.attemptSocket env hist = s._socket := by
    unfold RemoteSyslogAppender.attemptSocket; simp [hlive]
  have eset : s.attemptSetup env hist s._ipAddr (htons s._portNumber) = [] := by
    unfold RemoteSyslogAppender.attemptSetup; simp [hlive]
  unfold RemoteSyslogAppender.attemptSucceedsAt RemoteSyslogAppender.attemptStart at hok
  rw [append_stream env hist s event htcp]
  rw [streamLoop_of_succeeds _ _ _ _ _ _ 2 hist s hok]
  refine ⟨_, rfl, ?_, rfl, ?_⟩
  · simp only [efd]
  · simp only [efd, eset, e1, List.nil_append]
    rw [e3, e2]

/-- The scenario of the specification: message "hello", preamble "<11>",
live connection accepting both writes: the bytes written are "9 " and
"<11>hello". -/
theorem stream_framing_hello :
    (liveStreamAppender._append fullEnv [] helloEvent).map (fun r => (r.calls, r.attempts)) =
      some ([SysCall.send 3 "9 ".toList 2, SysCall.send 3 "<11>hello".toList 9], 1) := by
  decide

theorem stream_calls_at_two_pow_32 (message : Bytes) (hM : message.length = 4294967292) :
    (liveStreamAppender._append fullEnv [] { formatted := message, priority := 300 }).map
      (fun r => (r.calls, r.attempts)) =
      some ([SysCall.send 3 "0 ".toList 2, SysCall.send 3 [] 0], 1) := by
  have hpri : liveStreamAppender.wirePriority { formatted := message, priority := 300 } = 11 := by
    show wrap32 (8 + toSyslogPriority 300) = 11
    decide
  have hlen : (sprintfPreamble 11).length = 4 := by decide
  have hsl : streamLength 4294967292 ((4 : Nat) : Int) = 0 := by decide
  have hof : octetFraming 4294967292 ((4 : Nat) : Int) = "0 ".toList := by decide
  have hsz : toSizeT 0 = 0 := by decide
  have hok : liveStreamAppender.attemptSucceeds fullEnv [] liveStreamAppender._ipAddr
      (htons liveStreamAppender._portNumber)
      (wireBuffer 11 message) 4294967292 ((4 : Nat) : Int) := by
    unfold RemoteSyslogAppender.attemptSucceeds
    rw [hsl, hof, hsz]
    refine ⟨Or.inl (by decide), rfl, ?_⟩
    rw [List.take_zero]
    rfl
  rw [append_stream _ _ _ _ (by decide), Option.map_some']
  simp only []
  rw [hpri, hlen, hM]
  rw [streamLoop_of_succeeds _ _ _ _ _ _ 2 [] liveStreamAppender hok]
  rw [hsl, hof, hsz, List.take_zero]
  rfl

/-- C5: the code at the failing input. A stream appender with a live
connection (socket 3) that accepts every write in full, facility 8, level
300 (preamble "<11>"), and a message of 4,294,967,292 bytes, so that `M + P`
is 2^32: the cast to `unsigned int` makes the length token "0 " and the
cast to `int` makes the second write 0 bytes long, so the bytes written are
"0 " and not decimal(4294967296) ++ " " ++ preamble ++ message. Already
from `M + P` = 100,000,000 on, the token with its NUL has 11 bytes or more,
which is more than the 10 bytes of `octet_framing`. -/
theorem stream_framing_wraps_at_two_pow_32 :
    (octetFraming 99999996 4).length + 1 = 11 ∧
    (liveStreamAppender._append fullEnv []
        { formatted := List.replicate 4294967292 'x', priority := 300 }).map
      (fun r => (r.calls, r.attempts)) =
      some ([SysCall.send 3 "0 ".toList 2, SysCall.send 3 [] 0], 1) :=
  ⟨by decide, stream_calls_at_two_pow_32 _ (List.length_replicate _ _)⟩

/-! ## Stream retry -/

/-- An iteration that does not reach `break` ends with a system call that is
not a write: the failed `socket()` or a `closesocket`. -/
theorem streamAttempt_last_of_fail (env : Env) (hist : List SysCall) (s : RemoteSyslogAppender)
    (ip port : Nat) (buf : Bytes) (M : Nat) (P : Int)
    (h : (s.streamAttempt env hist ip port buf M P).1 = false) :
    ∃ c, (s.streamAttempt env hist ip port buf M P).2.2.getLast? = some c ∧ c.isSend = false := by
  revert h
  unfold RemoteSyslogAppender.streamAttempt RemoteSyslogAppender.streamConnect
    RemoteSyslogAppender.streamWrite
  simp only []
  split_ifs <;> simp_all [SysCall.isSend]

/-- When no iteration succeeds the last system call of the loop is not a
write. -/
theorem streamLoop_all_fail_last (env : Env) (ip port : Nat) (buf : Bytes) (M : Nat) (P : Int)
    (n : Nat) : ∀ (hist : List SysCall) (s : RemoteSyslogAppender), 0 < n →
    (∀ i, i < n → ¬ (RemoteSyslogAppender.attemptStart env ip port buf M P i hist s).2.attemptSucceeds
      env (RemoteSyslogAppender.attemptStart env ip port buf M P i hist s).1 ip port buf M P) →
    ∃ c, (RemoteSyslogAppender.streamLoop env ip port buf M P n hist s).2.1.getLast? = some c ∧
      c.isSend = false := by
  induction n with
  | zero => intro hist s hn; omega
  | succ n ih =>
    intro hist s _ hall
    have h0 : ¬ s.attemptSucceeds env hist ip port buf M P := hall 0 (Nat.succ_pos n)
    rw [streamLoop_of_not_succeeds env ip port buf M P n hist s h0]
    obtain ⟨c, hc, hs⟩ := streamAttempt_last_of_fail env hist s ip port buf M P
      (streamAttempt_of_not_succeeds env hist s ip port buf M P h0).1
    rcases Nat.eq_zero_or_pos n with hn | hn
    · subst hn
      refine ⟨c, ?_, hs⟩
      simp only [RemoteSyslogAppender.streamLoop, List.append_nil]
      exact hc
    · obtain ⟨c', hc', hs'⟩ := ih (hist ++ (s.streamAttempt env hist ip port buf M P).2.2)
        { s with _socket := INVALID_SOCKET } hn (by
          intro i hi
          have := hall (i + 1) (Nat.succ_lt_succ hi)
          rw [attemptStart_succ_of_not_succeeds env ip port buf M P i hist s h0] at this
          exact this)
      refine ⟨c', ?_, hs'⟩
      simp only [List.getLast?_append, hc']
      rfl

/-- The retry loop of the stream transport. One call of `_append` in stream
mode, whatever the transport answers, returns and runs at most 3 iterations of the retry loop. If no
iteration succeeds (socket creation or connect fails, or a write is short)
it runs exactly 3 and returns with the socket invalid and the rest of the
state unchanged, its last system call not being a write (the failed
`socket()` or the `closesocket` of the attempt): the message is dropped. If
iteration `k + 1` (`k < 3`) is
the first whose connection is established and whose two writes are accepted
in full, it runs exactly `k + 1` iterations, the last two system calls are
the write of the length token and the write of the buffer, both returning
the full length, and the socket written on stays in the state. When `M + P`
is at most 99,999,999 the token is decimal(M+P) ++ " " and the buffer
written is preamble ++ message. -/
theorem stream_retry_bound (env : Env) (hist : List SysCall)
    (s : RemoteSyslogAppender) (event : LoggingEvent) (htcp : s._tcp = true) :
    ∃ r, s._append env hist event = some r ∧ r.attempts ≤ 3 ∧
      ((∀ i, i < 3 → ¬ s.attemptSucceedsAt env hist event i) →
        r.attempts = 3 ∧ r.state = { s with _socket := INVALID_SOCKET } ∧
        ∃ c, r.calls.getLast? = some c ∧ c.isSend = false) ∧
      (∀ k, k < 3 → (∀ i, i < k → ¬ s.attemptSucceedsAt env hist event i) →
        s.attemptSucceedsAt env hist event k →
        r.attempts = k + 1 ∧
        ∃ fd before, IS_VALID_SOCKET fd = true ∧ r.state = { s with _socket := fd } ∧
          r.calls = before ++
            [SysCall.send fd
              (octetFraming event.formatted.length (sprintfPreamble (s.wirePriority event)).length)
              ((octetFraming event.formatted.length
                (sprintfPreamble (s.wirePriority event)).length).length : Int),
             SysCall.send fd
              ((wireBuffer (s.wirePriority event) event.formatted).take
                (toSizeT (streamLength event.formatted.length
                  (sprintfPreamble (s.wirePriority event)).length)))
              (streamLength event.formatted.length
                (sprintfPreamble (s.wirePriority event)).length)]) ∧
      (event.formatted.length + (sprintfPreamble (s.wirePriority event)).length ≤ 99999999 →
        octetFraming event.formatted.length (sprintfPreamble (s.wirePriority event)).length
          = fmtUnsigned (event.formatted.length
              + (sprintfPreamble (s.wirePriority event)).length) ++ [' '] ∧
        (wireBuffer (s.wirePriority event) event.formatted).take
            (toSizeT (streamLength event.formatted.length
              (sprintfPreamble (s.wirePriority event)).length))
          = sprintfPreamble (s.wirePriority event) ++ event.formatted) := by
  rw [append_stream env hist s event htcp]
  refine ⟨_, rfl, ?_, ?_, ?_, ?_⟩
  · exact streamLoop_attempts_le _ _ _ _ _ _ 3 hist s
  · intro hall
    have := streamLoop_all_fail env s._ipAddr (htons s._portNumber)
      (wireBuffer (s.wirePriority event) event.formatted) event.formatted.length
      ((sprintfPreamble (s.wirePriority event)).length : Int) 3 hist s hall
    exact ⟨this.1, this.2 (by decide),
      streamLoop_all_fail_last env s._ipAddr (htons s._portNumber)
        (wireBuffer (s.wirePriority event) event.formatted) event.formatted.length
        ((sprintfPreamble (s.wirePriority event)).length : Int) 3 hist s (by decide) hall⟩
  · intro k hk hfail hok
    exact streamLoop_first_success env s._ipAddr (htons s._portNumber)
      (wireBuffer (s.wirePriority event) event.formatted) event.formatted.length
      ((sprintfPreamble (s.wirePriority event)).length : Int) 3 k hist s hk hfail hok
  · intro hfit
    have hP := wirePriority_preamble_length s event
    obtain ⟨e1, _, e3⟩ := stream_frame_in_range (s.wirePriority event) event.formatted
      (by omega) hfit
    exact ⟨e1, e3⟩
/-- An instance of the retry bound: a stream appender on a transport whose first two connects
fail and whose third succeeds runs exactly 3 iterations and ends with a
live socket. -/
theorem stream_retry_bound_witness :
    (sampleAppender 8 true)._tcp = true ∧
    ∃ r, (sampleAppender 8 true)._append flakyEnv [] helloEvent = some r ∧
      r.attempts = 3 ∧ IS_VALID_SOCKET r.state._socket = true := by
  obtain ⟨r, h1, _, _, h4, _⟩ :=
    stream_retry_bound flakyEnv [] (sampleAppender 8 true) helloEvent rfl
  obtain ⟨ha, fd, before, hfd, hst, _⟩ := h4 2 (by decide) (by decide) (by decide)
  exact ⟨rfl, r, h1, ha, by rw [hst]; exact hfd⟩

/-! ## The datagram transport -/

theorem buf_take_900 (pre rest pad : Bytes) (hP : pre.length ≤ 900)
    (hbig : 900 < pre.length + rest.length) :
    (pre ++ rest ++ pad).take 900 = pre ++ rest.take (900 - pre.length) := by
  rw [List.append_assoc, List.take_append_eq_append_take, List.take_of_length_le hP,
    List.take_append_of_le_length (by omega)]

theorem memmove_step (pre rest pad : Bytes) (hP : pre.length ≤ 900)
    (hbig : 900 < pre.length + rest.length) :
    memmove (pre ++ rest ++ pad) pre.length 900 (rest.length - (900 - pre.length)) =
      pre ++ rest.drop (900 - pre.length)
        ++ (rest.drop (rest.length - (900 - pre.length)) ++ pad) := by
  have e1 : (pre ++ rest ++ pad).drop 900 = rest.drop (900 - pre.length) ++ pad := by
    rw [List.append_assoc, List.drop_append_eq_append_drop, List.drop_of_length_le hP,
      List.nil_append, List.drop_append_of_le_length (by omega)]
  have e2 : (rest.drop (900 - pre.length) ++ pad).take (rest.length - (900 - pre.length))
      = rest.drop (900 - pre.length) :=
    List.take_left' (by simp)
  have e3 : (pre ++ rest ++ pad).take pre.length = pre := by
    rw [List.append_assoc]
    exact List.take_left' rfl
  have e4 : (pre ++ rest ++ pad).drop (pre.length + (rest.drop (900 - pre.length)).length)
      = rest.drop (rest.length - (900 - pre.length)) ++ pad := by
    rw [List.append_assoc, ← List.drop_drop, List.drop_left' rfl, List.length_drop,
      List.drop_append_of_le_length (by omega)]
  unfold memmove writeAt
  rw [e1, e2, e3, e4]

theorem buf_take_last (pre rest pad : Bytes) (hsmall : pre.length + rest.length ≤ 900) :
    (pre ++ rest ++ pad).take
        (toSizeT (wrap32 ((pre.length : Int) + wrap32 (rest.length : Int))))
      = pre ++ rest := by
  have : toSizeT (wrap32 ((pre.length : Int) + wrap32 (rest.length : Int)))
      = (pre ++ rest).length := by
    rw [List.length_append]
    unfold toSizeT wrap32
    omega
  rw [this]
  exact List.take_left' rfl

theorem datagramsOf_cons_sendto (fd : Int) (data : Bytes) (ip port : Nat) (ret : Int)
    (cs : List SysCall) :
    datagramsOf (SysCall.sendto fd data ip port ret :: cs) = data :: datagramsOf cs := rfl

/-- The datagram loop on a buffer that holds the preamble, then the `M`
message bytes still to send: it ends within `M` iterations, makes only
`sendto` calls, and its datagrams all start with the preamble, carry the
remaining bytes in order, and are all of 900 bytes but the last. -/
theorem datagramLoop_spec (env : Env) (fd : Int) (ip port : Nat) (pre : Bytes)
    (hP : pre.length < 900) (fuel : Nat) :
    ∀ (hist : List SysCall) (rest pad : Bytes), rest.length ≤ fuel →
    ∃ cs, RemoteSyslogAppender.datagramLoop env fd ip port pre.length fuel hist
        (pre ++ rest ++ pad) rest.length = some cs ∧
      cs.length = (datagramsOf cs).length ∧
      (∀ d ∈ datagramsOf cs, d.take pre.length = pre) ∧
      ((datagramsOf cs).map (List.drop pre.length)).flatten = rest ∧
      (rest = [] → cs = []) ∧
      (rest ≠ [] → ∃ init last, datagramsOf cs = init ++ [last] ∧
        (∀ d ∈ init, d.length = 900) ∧
        pre.length + 1 ≤ last.length ∧ last.length ≤ 900 ∧
        (pre.length + rest.length ≤ 900 → init = [] ∧ last = pre ++ rest) ∧
        (900 < pre.length + rest.length →
          (datagramsOf cs).head? = some ((pre ++ rest).take 900))) := by
  induction fuel with
  | zero =>
    intro hist rest pad hfuel
    have hr : rest = [] := List.length_eq_zero.mp (by omega)
    subst hr
    refine ⟨[], ?_, rfl, ?_, rfl, fun _ => rfl, fun h => absurd rfl h⟩
    · simp [RemoteSyslogAppender.datagramLoop]
    · intro d hd
      simp [datagramsOf] at hd
  | succ fuel ih =>
    intro hist rest pad hfuel
    by_cases hM : rest.length > 0
    · by_cases hbig : pre.length + rest.length > 900
      · -- a full datagram, then the rest
        have hstep := memmove_step pre rest pad (by omega) hbig
        obtain ⟨cs, hcs, hlen, hpre, hjoin, _, hsizes⟩ :=
          ih (hist ++ [SysCall.sendto fd ((pre ++ rest ++ pad).take 900) ip port
              (env.sendto hist fd ((pre ++ rest ++ pad).take 900) ip port)])
            (rest.drop (900 - pre.length))
            (rest.drop (rest.length - (900 - pre.length)) ++ pad)
            (by rw [List.length_drop]; omega)
        have hne : rest.drop (900 - pre.length) ≠ [] := by
          intro h
          have := congrArg List.length h
          rw [List.length_drop] at this
          simp at this
          omega
        obtain ⟨init, last, hds, hinit, hl1, hl2, _, _⟩ := hsizes hne
        have htake := buf_take_900 pre rest pad (by omega) hbig
        refine ⟨SysCall.sendto fd ((pre ++ rest ++ pad).take 900) ip port
            (env.sendto hist fd ((pre ++ rest ++ pad).take 900) ip port) :: cs,
          ?_, ?_, ?_, ?_, ?_, ?_⟩
        · unfold RemoteSyslogAppender.datagramLoop
          simp only [hM, hbig, if_true]
          rw [hstep]
          rw [List.length_drop] at hcs
          rw [hcs]
          rfl
        · rw [datagramsOf_cons_sendto]
          simp [hlen]
        · intro d hd
          rw [datagramsOf_cons_sendto] at hd
          rcases List.mem_cons.mp hd with h | h
          · rw [h, htake]
            exact List.take_left' rfl
          · exact hpre d h
        · rw [datagramsOf_cons_sendto, List.map_cons, List.flatten_cons, hjoin, htake,
            List.drop_left' rfl, List.take_append_drop]
        · intro h
          rw [h] at hM
          simp at hM
        · intro _
          refine ⟨(pre ++ rest ++ pad).take 900 :: init, last, ?_, ?_, hl1, hl2, ?_, ?_⟩
          · rw [datagramsOf_cons_sendto, hds]
            rfl
          · intro d hd
            rcases List.mem_cons.mp hd with h | h
            · rw [h, htake]
              simp
              omega
            · exact hinit d h
          · intro h
            omega
          · intro _
            have e : pre.take 900 = pre := List.take_of_length_le (by omega)
            rw [datagramsOf_cons_sendto, List.head?_cons, htake, List.take_append_eq_append_take, e]
      · -- the last datagram
        have hlast := buf_take_last pre rest pad (by omega)
        refine ⟨[SysCall.sendto fd (pre ++ rest) ip port (env.sendto hist fd (pre ++ rest) ip port)],
          ?_, rfl, ?_, ?_, ?_, ?_⟩
        · unfold RemoteSyslogAppender.datagramLoop
          simp only [hM, hbig, if_true, if_false]
          rw [hlast]
        · intro d hd
          simp only [datagramsOf, List.mem_singleton] at hd
          rw [hd]
          exact List.take_left' rfl
        · simp [datagramsOf]
        · intro h
          rw [h] at hM
          simp at hM
        · intro _
          refine ⟨[], pre ++ rest, rfl, ?_, ?_, ?_, fun _ => ⟨rfl, rfl⟩, fun h => ?_⟩
          · intro d hd
            simp at hd
          · simp
            omega
          · simp
            omega
          · omega
    · have hr : rest = [] := List.length_eq_zero.mp (by omega)
      subst hr
      refine ⟨[], ?_, rfl, ?_, rfl, fun _ => rfl, fun h => absurd rfl h⟩
      · simp [RemoteSyslogAppender.datagramLoop]
      · intro d hd
        simp [datagramsOf] at hd

theorem append_datagram (env : Env) (hist : List SysCall) (s : RemoteSyslogAppender)
    (event : LoggingEvent) (hudp : s._tcp = false) :
    s._append env hist event =
      (RemoteSyslogAppender.datagramLoop env s._socket s._ipAddr (htons s._portNumber)
        (sprintfPreamble (s.wirePriority event)).length event.formatted.length hist
        (wireBuffer (s.wirePriority event) event.formatted) event.formatted.length).map
        (fun cs => { state := s, calls := cs, attempts := 0 }) := by
  unfold RemoteSyslogAppender._append
  simp only [hudp, Bool.false_eq_true, if_false]

/-- The datagram path of `_append`: the call returns, leaves the state as it
is, makes only `sendto` calls, and its datagrams satisfy the properties of
`datagramLoop_spec` for the preamble and the message of the event. -/
theorem append_datagram_spec (env : Env) (hist : List SysCall) (s : RemoteSyslogAppender)
    (event : LoggingEvent) (hudp : s._tcp = false) :
    ∃ r, s._append env hist event = some r ∧ r.state = s ∧
      r.calls.length = (datagramsOf r.calls).length ∧
      (∀ d ∈ datagramsOf r.calls,
        d.take (sprintfPreamble (s.wirePriority event)).length
          = sprintfPreamble (s.wirePriority event)) ∧
      ((datagramsOf r.calls).map
        (List.drop (sprintfPreamble (s.wirePriority event)).length)).flatten = event.formatted ∧
      (event.formatted = [] → r.calls = []) ∧
      (event.formatted ≠ [] → ∃ init last, datagramsOf r.calls = init ++ [last] ∧
        (∀ d ∈ init, d.length = 900) ∧
        (sprintfPreamble (s.wirePriority event)).length + 1 ≤ last.length ∧ last.length ≤ 900 ∧
        ((sprintfPreamble (s.wirePriority event)).length + event.formatted.length ≤ 900 →
          init = [] ∧ last = sprintfPreamble (s.wirePriority event) ++ event.formatted) ∧
        (900 < (sprintfPreamble (s.wirePriority event)).length + event.formatted.length →
          (datagramsOf r.calls).head?
            = some ((sprintfPreamble (s.wirePriority event) ++ event.formatted).take 900))) := by
  have hP := wirePriority_preamble_length s event
  obtain ⟨cs, hcs, h⟩ := datagramLoop_spec env s._socket s._ipAddr (htons s._portNumber)
    (sprintfPreamble (s.wirePriority event)) (by omega) event.formatted.length hist
    event.formatted
    (List.replicate (16 - (sprintfPreamble (s.wirePriority event)).length) NUL) (le_refl _)
  rw [← wireBuffer_eq _ _ (by omega)] at hcs
  refine ⟨{ state := s, calls := cs, attempts := 0 }, ?_, rfl, h⟩
  rw [append_datagram env hist s event hudp, hcs]
  rfl

/-- C6: datagram reconstruction. For every appender in datagram mode and
every event whose preamble and message together exceed 900 bytes, `_append`
returns, every datagram it emits begins with the preamble, and the
datagrams, each stripped of its first `P` bytes and concatenated in
emission order, give back exactly the message; the first datagram is the
bytes [0,900) of preamble ++ message. -/
theorem datagram_reconstruction (env : Env) (hist : List SysCall) (s : RemoteSyslogAppender)
    (event : LoggingEvent) (hudp : s._tcp = false)
    (hbig : 900 < (sprintfPreamble (s.wirePriority event)).length + event.formatted.length) :
    ∃ r, s._append env hist event = some r ∧
      (∀ d ∈ datagramsOf r.calls,
        d.take (sprintfPreamble (s.wirePriority event)).length
          = sprintfPreamble (s.wirePriority event)) ∧
      ((datagramsOf r.calls).map
        (List.drop (sprintfPreamble (s.wirePriority event)).length)).flatten = event.formatted ∧
      (datagramsOf r.calls).head?
        = some ((sprintfPreamble (s.wirePriority event) ++ event.formatted).take 900) := by
  obtain ⟨r, hr, _, _, hpre, hjoin, _, hsizes⟩ := append_datagram_spec env hist s event hudp
  have hP := wirePriority_preamble_length s event
  have hne : event.formatted ≠ [] := by
    intro h
    rw [h] at hbig
    simp at hbig
    omega
  obtain ⟨_, _, _, _, _, _, _, hhead⟩ := hsizes hne
  exact ⟨r, hr, hpre, hjoin, hhead hbig⟩

set_option maxRecDepth 100000 in
/-- C6, witness: scenario C of the specification. A message of 1000 bytes
with the 4-byte preamble "<11>" gives two datagrams: the bytes [0,900) of
preamble ++ message, then the preamble and the remaining 104 message
bytes. -/
theorem datagram_reconstruction_witness :
    openDatagramAppender._tcp = false ∧
    900 < (sprintfPreamble (openDatagramAppender.wirePriority thousandEvent)).length
      + thousandEvent.formatted.length ∧
    ∃ r, openDatagramAppender._append fullEnv [] thousandEvent = some r ∧
      ((datagramsOf r.calls).map (List.drop 4)).flatten = thousandBytes ∧
      datagramsOf r.calls =
        [("<11>".toList ++ thousandBytes).take 900,
         "<11>".toList ++ thousandBytes.drop 896] ∧
      (thousandBytes.drop 896).length = 104 := by
  obtain ⟨r, hr, _, hjoin, _⟩ :=
    datagram_reconstruction fullEnv [] openDatagramAppender thousandEvent rfl (by decide)
  have hcalls : (openDatagramAppender._append fullEnv [] thousandEvent).map
      (fun r => datagramsOf r.calls) =
      some [("<11>".toList ++ thousandBytes).take 900,
        "<11>".toList ++ thousandBytes.drop 896] := by
    decide
  rw [hr] at hcalls
  exact ⟨rfl, by decide, r, hr, hjoin, Option.some.inj hcalls, by decide⟩

/-- C7: datagram size bound. For every appender in datagram mode and every
event, `_append` returns and every datagram it emits has at most 900 bytes;
when `P + M > 900` every datagram except the last has exactly 900 bytes and
the last has between `P + 1` and 900 bytes; when `P + M <= 900` and `M > 0`
exactly one datagram is emitted, preamble ++ message, of `P + M` bytes. -/
theorem datagram_size_bound (env : Env) (hist : List SysCall) (s : RemoteSyslogAppender)
    (event : LoggingEvent) (hudp : s._tcp = false) :
    ∃ r, s._append env hist event = some r ∧
      (∀ d ∈ datagramsOf r.calls, d.length ≤ 900) ∧
      (900 < (sprintfPreamble (s.wirePriority event)).length + event.formatted.length →
        ∃ init last, datagramsOf r.calls = init ++ [last] ∧
          (∀ d ∈ init, d.length = 900) ∧
          (sprintfPreamble (s.wirePriority event)).length + 1 ≤ last.length ∧
          last.length ≤ 900) ∧
      ((sprintfPreamble (s.wirePriority event)).length + event.formatted.length ≤ 900 →
        0 < event.formatted.length →
        datagramsOf r.calls = [sprintfPreamble (s.wirePriority event) ++ event.formatted] ∧
        (sprintfPreamble (s.wirePriority event) ++ event.formatted).length
          = (sprintfPreamble (s.wirePriority event)).length + event.formatted.length) := by
  obtain ⟨r, hr, _, _, _, _, hnil, hsizes⟩ := append_datagram_spec env hist s event hudp
  have hP := wirePriority_preamble_length s event
  refine ⟨r, hr, ?_, ?_, ?_⟩
  · intro d hd
    by_cases hne : event.formatted = []
    · rw [hnil hne] at hd
      simp [datagramsOf] at hd
    · obtain ⟨init, last, hds, hinit, _, hl2, _, _⟩ := hsizes hne
      rw [hds] at hd
      rcases List.mem_append.mp hd with h | h
      · exact le_of_eq (hinit d h)
      · rw [List.mem_singleton.mp h]
        exact hl2
  · intro hbig
    have hne : event.formatted ≠ [] := by
      intro h
      rw [h] at hbig
      simp at hbig
      omega
    obtain ⟨init, last, hds, hinit, hl1, hl2, _, _⟩ := hsizes hne
    exact ⟨init, last, hds, hinit, hl1, hl2⟩
  · intro hsmall hM
    have hne : event.formatted ≠ [] := by
      intro h
      rw [h] at hM
      simp at hM
    obtain ⟨init, last, hds, _, _, _, hone, _⟩ := hsizes hne
    obtain ⟨hi, hl⟩ := hone hsmall
    rw [hds, hi, hl]
    exact ⟨rfl, List.length_append _ _⟩

/-- C7, witness: the message "hello" with the preamble "<11>" is sent as the
one datagram "<11>hello" of 9 bytes. -/
theorem datagram_size_bound_witness :
    openDatagramAppender._tcp = false ∧
    ∃ r, openDatagramAppender._append fullEnv [] helloEvent = some r ∧
      datagramsOf r.calls = ["<11>hello".toList] := by
  obtain ⟨r, hr, _, _, hone⟩ :=
    datagram_size_bound fullEnv [] openDatagramAppender helloEvent rfl
  exact ⟨rfl, r, hr, (hone (by decide) (by decide)).1.trans (by decide)⟩

/-! ## Connection life cycle -/

/-- When the address is not resolved and both resolver calls fail, `open()`
returns with the state unchanged after the two resolver calls; no socket is
created. -/
theorem open_unresolved (env : Env) (hist : List SysCall) (s : RemoteSyslogAppender)
    (h0 : s._ipAddr = 0) (h1 : env.gethostbyname hist s._relayer = none)
    (h2 : env.gethostbyaddr (hist ++ [SysCall.gethostbyname s._relayer none])
      (env.inet_addr s._relayer) = none) :
    s.open env hist =
      (s, [SysCall.gethostbyname s._relayer none,
        SysCall.gethostbyaddr (env.inet_addr s._relayer) none]) := by
  unfold RemoteSyslogAppender.open
  simp only [h0, if_true, h1, h2, List.singleton_append]

/-- After construction with an unresolvable host the connection is Closed
and the address still 0, in both transports. -/
theorem construct_unresolved (env : Env) (hist : List SysCall)
    (name syslogName relayer : String) (facility portNumber : Int) (tcp : Bool)
    (h1 : env.gethostbyname hist relayer = none)
    (h2 : env.gethostbyaddr (hist ++ [SysCall.gethostbyname relayer none])
      (env.inet_addr relayer) = none) :
    (RemoteSyslogAppender.construct env hist name syslogName relayer facility portNumber tcp).1._socket
      = INVALID_SOCKET ∧
    (RemoteSyslogAppender.construct env hist name syslogName relayer facility portNumber tcp).1._ipAddr
      = 0 ∧
    wireTraffic
      (RemoteSyslogAppender.construct env hist name syslogName relayer facility portNumber tcp).2
      = [] := by
  unfold RemoteSyslogAppender.construct
  simp only []
  rw [open_unresolved env hist _ rfl h1 h2]
  exact ⟨rfl, rfl, rfl⟩

theorem datagramLoop_calls (env : Env) (fd : Int) (ip port : Nat) (P : Nat) (fuel : Nat) :
    ∀ (hist : List SysCall) (buf : Bytes) (M : Nat) (cs : List SysCall),
    RemoteSyslogAppender.datagramLoop env fd ip port P fuel hist buf M = some cs →
    ∀ c ∈ cs, ∃ data ret, c = SysCall.sendto fd data ip port ret := by
  induction fuel with
  | zero =>
    intro hist buf M cs h c hc
    unfold RemoteSyslogAppender.datagramLoop at h
    split_ifs at h
    rw [← Option.some.inj h] at hc
    simp at hc
  | succ fuel ih =>
    intro hist buf M cs h c hc
    unfold RemoteSyslogAppender.datagramLoop at h
    split_ifs at h with hM hbig
    · simp only [Option.map_eq_some'] at h
      obtain ⟨cs', hcs', rfl⟩ := h
      rcases List.mem_cons.mp hc with hc | hc
      · exact ⟨_, _, hc⟩
      · exact ih _ _ _ _ hcs' c hc
    · rw [← Option.some.inj h] at hc
      exact ⟨_, _, List.mem_singleton.mp hc⟩
    · rw [← Option.some.inj h] at hc
      simp at hc

theorem wireTraffic_of_invalid (fd : Int) (ip port : Nat) (hfd : IS_VALID_SOCKET fd = false) :
    ∀ cs : List SysCall, (∀ c ∈ cs, ∃ data ret, c = SysCall.sendto fd data ip port ret) →
    wireTraffic cs = [] := by
  intro cs
  induction cs with
  | nil => intro _; rfl
  | cons c cs ih =>
    intro h
    obtain ⟨data, ret, rfl⟩ := h c (List.mem_cons_self _ _)
    unfold wireTraffic
    simp only [hfd, Bool.false_eq_true, if_false]
    exact ih (fun c hc => h c (List.mem_cons_of_mem _ hc))

/-- In datagram mode with the connection Closed, `_append` returns, leaves
the state as it is and puts no byte on any socket: its `sendto` calls are
made on the invalid handle. -/
theorem append_datagram_closed (env : Env) (hist : List SysCall) (s : RemoteSyslogAppender)
    (event : LoggingEvent) (hudp : s._tcp = false) (hclosed : IS_VALID_SOCKET s._socket = false) :
    ∃ r, s._append env hist event = some r ∧ r.state = s ∧ wireTraffic r.calls = [] := by
  obtain ⟨r, hr, hst, _⟩ := append_datagram_spec env hist s event hudp
  refine ⟨r, hr, hst, ?_⟩
  have h := hr
  rw [append_datagram env hist s event hudp, Option.map_eq_some'] at h
  obtain ⟨cs, hcs, rfl⟩ := h
  exact wireTraffic_of_invalid s._socket s._ipAddr (htons s._portNumber) hclosed cs
    (datagramLoop_calls env _ _ _ _ _ _ _ _ cs hcs)

/-- C9: the code at the failing input. A stream appender is constructed for
a host that cannot be resolved: the connection is Closed and the address 0.
The next `append` of "hello" nevertheless creates a socket, connects it to
address 0 and, the transport accepting the connection, writes "9 " and
"<11>hello" on socket 3. -/
theorem unresolved_stream_append_sends :
    (RemoteSyslogAppender.construct noHostEnv [] "remote" "app" "loghost" (-1) (-1) true)
      = (sampleAppender 8 true,
          [SysCall.gethostbyname "loghost" none, SysCall.gethostbyaddr 0 none]) ∧
    ((sampleAppender 8 true)._append noHostEnv
        [SysCall.gethostbyname "loghost" none, SysCall.gethostbyaddr 0 none] helloEvent).map
      (fun r => (r.calls, wireTraffic r.calls)) =
      some ([SysCall.socket SockType.SOCK_STREAM 3, SysCall.connect 3 0 514 0,
          SysCall.send 3 "9 ".toList 2, SysCall.send 3 "<11>hello".toList 9],
        [(3, "9 ".toList), (3, "<11>hello".toList)]) := by
  decide

/-- C10: `close()` is idempotent. On a state whose socket is invalid it
changes nothing and makes no system call; on every state a second `close()`
changes nothing and makes no system call, and after `close()` the socket is
invalid. -/
theorem close_idempotent (s : RemoteSyslogAppender) :
    (IS_VALID_SOCKET s._socket = false → s.close = (s, [])) ∧
    s.close.1.close = (s.close.1, []) ∧
    IS_VALID_SOCKET s.close.1._socket = false := by
  unfold RemoteSyslogAppender.close
  by_cases h : IS_VALID_SOCKET s._socket = true
  · simp only [h, if_true, Bool.true_eq_false, false_implies, true_and]
    have : IS_VALID_SOCKET INVALID_SOCKET = false := by decide
    simp only [this, Bool.false_eq_true, if_false, and_self]
  · have h' : IS_VALID_SOCKET s._socket = false := by simpa using h
    simp only [h', Bool.false_eq_true, if_false, implies_true, and_self]

/-- C10, witness: closing a Closed appender changes nothing and makes no
system call; closing a live one closes socket 3 once, and a second close
does nothing. -/
theorem close_idempotent_witness :
    IS_VALID_SOCKET (sampleAppender 8 true)._socket = false ∧
    (sampleAppender 8 true).close = (sampleAppender 8 true, []) ∧
    liveStreamAppender.close =
      ({ liveStreamAppender with _socket := INVALID_SOCKET }, [SysCall.closesocket 3]) ∧
    liveStreamAppender.close.1.close = (liveStreamAppender.close.1, []) :=
  ⟨by decide, (close_idempotent (sampleAppender 8 true)).1 (by decide), by decide,
    (close_idempotent liveStreamAppender).2.1⟩

/-! ## reopen and the constructor -/

theorem openSocket_fields (env : Env) (hist : List SysCall) (s : RemoteSyslogAppender) :
    ∃ fd, (s.openSocket env hist).1 = { s with _socket := fd } := by
  unfold RemoteSyslogAppender.openSocket
  split_ifs
  · exact ⟨_, rfl⟩
  · exact ⟨s._socket, rfl⟩

/-- The function `open()` changes no field but the socket and the address. -/
theorem open_fields (env : Env) (hist : List SysCall) (s : RemoteSyslogAppender) :
    ∃ fd addr, (s.open env hist).1 = { s with _socket := fd, _ipAddr := addr } := by
  unfold RemoteSyslogAppender.open
  by_cases h0 : s._ipAddr = 0
  · simp only [h0, if_true]
    cases h1 : env.gethostbyname hist s._relayer with
    | some addr =>
      simp only []
      obtain ⟨fd, h⟩ := openSocket_fields env
        (hist ++ [SysCall.gethostbyname s._relayer (some addr)]) { s with _ipAddr := addr }
      rw [h]
      exact ⟨fd, addr, rfl⟩
    | none =>
      simp only []
      cases h2 : env.gethostbyaddr (hist ++ [SysCall.gethostbyname s._relayer none])
          (env.inet_addr s._relayer) with
      | some addr =>
        simp only []
        obtain ⟨fd, h⟩ := openSocket_fields env
          (hist ++ ([SysCall.gethostbyname s._relayer none] ++
            [SysCall.gethostbyaddr (env.inet_addr s._relayer) (some addr)]))
          { s with _ipAddr := addr }
        rw [h]
        exact ⟨fd, addr, rfl⟩
      | none =>
        simp only []
        refine ⟨s._socket, 0, ?_⟩
        cases s
        simp only at h0
        subst h0
        rfl
  · simp only [h0, if_false]
    obtain ⟨fd, h⟩ := openSocket_fields env hist s
    rw [h]
    exact ⟨fd, s._ipAddr, rfl⟩

/-- C11: `reopen()` returns true for every appender state and every outcome
of the resolution and of the socket creation in the `open()` it performs;
its effect is that of `close()` followed by `open()`. -/
theorem reopen_returns_true (env : Env) (hist : List SysCall) (s : RemoteSyslogAppender) :
    (s.reopen env hist).1 = true ∧
    (s.reopen env hist).2.1 = (s.close.1.open env (hist ++ s.close.2)).1 ∧
    (s.reopen env hist).2.2 = s.close.2 ++ (s.close.1.open env (hist ++ s.close.2)).2 :=
  ⟨rfl, rfl, rfl⟩

/-- An instance in which `reopen()` returns true although the connection is
Closed afterwards: a datagram appender whose host cannot be resolved. -/
theorem reopen_true_when_left_closed :
    ((sampleAppender 8 false).reopen noHostEnv []).1 = true ∧
    IS_VALID_SOCKET ((sampleAppender 8 false).reopen noHostEnv []).2.1._socket = false := by
  decide

/-- C13: constructor defaults. For every facility argument `f` and port
argument `p` the constructed appender stores facility `LOG_USER` (8) when
`f = -1` and `f` otherwise, port 514 when `p = -1` and `p` otherwise.
Construction then calls `open()`: its result, state and system calls, is
that of `open()` on the initialised members (socket invalid, address 0),
so its first system call is the `gethostbyname` of the relayer; and it
yields a state whatever the transport answers. -/
theorem construct_defaults (env : Env) (hist : List SysCall)
    (name syslogName relayer : String) (f p : Int) (tcp : Bool) :
    (RemoteSyslogAppender.construct env hist name syslogName relayer f p tcp).1._facility
      = (if f = -1 then 8 else f) ∧
    (RemoteSyslogAppender.construct env hist name syslogName relayer f p tcp).1._portNumber
      = (if p = -1 then 514 else p) ∧
    (RemoteSyslogAppender.construct env hist name syslogName relayer f p tcp).1._tcp = tcp ∧
    RemoteSyslogAppender.construct env hist name syslogName relayer f p tcp =
      RemoteSyslogAppender.open env hist
        { name := name
          _syslogName := syslogName
          _relayer := relayer
          _facility := if f = -1 then 8 else f
          _portNumber := if p = -1 then 514 else p
          _socket := INVALID_SOCKET
          _ipAddr := 0
          _tcp := tcp } ∧
    (RemoteSyslogAppender.construct env hist name syslogName relayer f p tcp).2.head?
      = some (SysCall.gethostbyname relayer (env.gethostbyname hist relayer)) ∧
    ∃ fd addr, (RemoteSyslogAppender.construct env hist name syslogName relayer f p tcp).1 =
      { name := name
        _syslogName := syslogName
        _relayer := relayer
        _facility := if f = -1 then LOG_USER else f
        _portNumber := if p = -1 then 514 else p
        _socket := fd
        _ipAddr := addr
        _tcp := tcp } := by
  have hopen : RemoteSyslogAppender.construct env hist name syslogName relayer f p tcp =
      RemoteSyslogAppender.open env hist
        { name := name
          _syslogName := syslogName
          _relayer := relayer
          _facility := if f = -1 then 8 else f
          _portNumber := if p = -1 then 514 else p
          _socket := INVALID_SOCKET
          _ipAddr := 0
          _tcp := tcp } := rfl
  have hhead : (RemoteSyslogAppender.open env hist
        { name := name
          _syslogName := syslogName
          _relayer := relayer
          _facility := if f = -1 then 8 else f
          _portNumber := if p = -1 then 514 else p
          _socket := INVALID_SOCKET
          _ipAddr := 0
          _tcp := tcp }).2.head?
      = some (SysCall.gethostbyname relayer (env.gethostbyname hist relayer)) := by
    unfold RemoteSyslogAppender.open
    simp only [if_true]
    cases env.gethostbyname hist relayer with
    | some addr => rfl
    | none =>
      simp only []
      cases env.gethostbyaddr (hist ++ [SysCall.gethostbyname relayer none])
          (env.inet_addr relayer) with
      | some addr => rfl
      | none => rfl
  obtain ⟨fd, addr, h⟩ := open_fields env hist
    { name := name
      _syslogName := syslogName
      _relayer := relayer
      _facility := if f = -1 then 8 else f
      _portNumber := if p = -1 then 514 else p
      _socket := INVALID_SOCKET
      _ipAddr := 0
      _tcp := tcp }
  rw [hopen]
  refine ⟨?_, ?_, ?_, rfl, hhead, fd, addr, ?_⟩
  · rw [h]
  · rw [h]
  · rw [h]
  · rw [h]
    rfl

/-- The factory, called without the optional parameters, constructs an
appender with facility 8 and port 514. -/
theorem factory_defaults (env : Env) (hist : List SysCall) (name syslog_name relayer : String)
    (tcp : Bool) :
    (create_remote_syslog_appender env hist name syslog_name relayer none none tcp).1._facility = 8 ∧
    (create_remote_syslog_appender env hist name syslog_name relayer none none tcp).1._portNumber
      = 514 := by
  unfold create_remote_syslog_appender RemoteSyslogAppender.construct
  simp only []
  obtain ⟨fd, addr, h⟩ := open_fields env hist
    { name := name
      _syslogName := syslog_name
      _relayer := relayer
      _facility := if (none : Option Int).getD (-1) = -1 then LOG_USER else (none : Option Int).getD (-1)
      _portNumber := if (none : Option Int).getD (-1) = -1 then 514 else (none : Option Int).getD (-1)
      _socket := INVALID_SOCKET
      _ipAddr := 0
      _tcp := tcp }
  rw [h]
  exact ⟨rfl, rfl⟩

/-! ## The cached address -/

theorem open_of_resolved (env : Env) (hist : List SysCall) (s : RemoteSyslogAppender)
    (h : s._ipAddr ≠ 0) : s.open env hist = s.openSocket env hist := by
  unfold RemoteSyslogAppender.open
  simp only [h, if_false]

theorem openSocket_shape (env : Env) (hist : List SysCall) (s : RemoteSyslogAppender) :
    (s.openSocket env hist).1._ipAddr = s._ipAddr ∧
    ∀ c ∈ (s.openSocket env hist).2, c.isResolve = false := by
  unfold RemoteSyslogAppender.openSocket
  split_ifs <;> simp [SysCall.isResolve]

theorem close_shape (s : RemoteSyslogAppender) :
    s.close.1._ipAddr = s._ipAddr ∧ ∀ c ∈ s.close.2, c.isResolve = false := by
  unfold RemoteSyslogAppender.close
  split_ifs <;> simp [SysCall.isResolve]

/-- An iteration of the retry loop changes no field but the socket and makes
no resolver call. -/
theorem streamAttempt_shape (env : Env) (hist : List SysCall) (s : RemoteSyslogAppender)
    (ip port : Nat) (buf : Bytes) (M : Nat) (P : Int) :
    (∃ fd, (s.streamAttempt env hist ip port buf M P).2.1 = { s with _socket := fd }) ∧
    ∀ c ∈ (s.streamAttempt env hist ip port buf M P).2.2, c.isResolve = false := by
  unfold RemoteSyslogAppender.streamAttempt RemoteSyslogAppender.streamConnect
    RemoteSyslogAppender.streamWrite
  simp only []
  split_ifs <;> refine ⟨?_, ?_⟩ <;>
    first
    | exact ⟨s._socket, rfl⟩
    | exact ⟨_, rfl⟩
    | simp [SysCall.isResolve]

/-- The retry loop changes no field but the socket and makes no resolver
call. -/
theorem streamLoop_shape (env : Env) (ip port : Nat) (buf : Bytes) (M : Nat) (P : Int)
    (n : Nat) : ∀ (hist : List SysCall) (s : RemoteSyslogAppender),
    (∃ fd, (RemoteSyslogAppender.streamLoop env ip port buf M P n hist s).1
      = { s with _socket := fd }) ∧
    ∀ c ∈ (RemoteSyslogAppender.streamLoop env ip port buf M P n hist s).2.1,
      c.isResolve = false := by
  induction n with
  | zero =>
    intro hist s
    simp only [RemoteSyslogAppender.streamLoop]
    exact ⟨⟨s._socket, rfl⟩, fun c hc => by simp at hc⟩
  | succ n ih =>
    intro hist s
    obtain ⟨⟨fd, hfd⟩, hcalls⟩ := streamAttempt_shape env hist s ip port buf M P
    unfold RemoteSyslogAppender.streamLoop
    simp only []
    split_ifs
    · exact ⟨⟨fd, hfd⟩, hcalls⟩
    · obtain ⟨⟨fd2, hfd2⟩, hcalls2⟩ := ih (hist ++ (s.streamAttempt env hist ip port buf M P).2.2)
        (s.streamAttempt env hist ip port buf M P).2.1
      refine ⟨⟨fd2, ?_⟩, ?_⟩
      · rw [hfd2, hfd]
      · intro c hc
        rcases List.mem_append.mp hc with h | h
        · exact hcalls c h
        · exact hcalls2 c h

/-- A call of `_append` returns, changes no field but the socket and makes
no resolver call. -/
theorem append_shape (env : Env) (hist : List SysCall) (s : RemoteSyslogAppender)
    (event : LoggingEvent) :
    ∃ r, s._append env hist event = some r ∧ (∃ fd, r.state = { s with _socket := fd }) ∧
      ∀ c ∈ r.calls, c.isResolve = false := by
  by_cases htcp : s._tcp = true
  · rw [append_stream env hist s event htcp]
    obtain ⟨hst, hcalls⟩ := streamLoop_shape env s._ipAddr (htons s._portNumber)
      (wireBuffer (s.wirePriority event) event.formatted) event.formatted.length
      ((sprintfPreamble (s.wirePriority event)).length : Int) 3 hist s
    exact ⟨_, rfl, hst, hcalls⟩
  · have hudp : s._tcp = false := by simpa using htcp
    obtain ⟨r, hr, hst, _⟩ := append_datagram_spec env hist s event hudp
    refine ⟨r, hr, ⟨s._socket, by rw [hst]⟩, ?_⟩
    have h := hr
    rw [append_datagram env hist s event hudp, Option.map_eq_some'] at h
    obtain ⟨cs, hcs, rfl⟩ := h
    intro c hc
    obtain ⟨data, ret, rfl⟩ := datagramLoop_calls env _ _ _ _ _ _ _ _ cs hcs c hc
    rfl

/-- C12: resolved-address caching. For every appender state whose cached
address `_ipAddr` is not zero, each of `open()`, `close()`, `reopen()` and
`_append()` leaves `_ipAddr` unchanged and makes no host resolution call
(`gethostbyname`, `gethostbyaddr`); `_append()` returns. -/
theorem address_cached (env : Env) (hist : List SysCall) (s : RemoteSyslogAppender)
    (event : LoggingEvent) (h : s._ipAddr ≠ 0) :
    ((s.open env hist).1._ipAddr = s._ipAddr ∧
      ∀ c ∈ (s.open env hist).2, c.isResolve = false) ∧
    (s.close.1._ipAddr = s._ipAddr ∧ ∀ c ∈ s.close.2, c.isResolve = false) ∧
    ((s.reopen env hist).2.1._ipAddr = s._ipAddr ∧
      ∀ c ∈ (s.reopen env hist).2.2, c.isResolve = false) ∧
    ∃ r, s._append env hist event = some r ∧ r.state._ipAddr = s._ipAddr ∧
      ∀ c ∈ r.calls, c.isResolve = false := by
  have hclose := close_shape s
  refine ⟨?_, hclose, ?_, ?_⟩
  · rw [open_of_resolved env hist s h]
    exact openSocket_shape env hist s
  · have h' : s.close.1._ipAddr ≠ 0 := by rw [hclose.1]; exact h
    have hopen := openSocket_shape env (hist ++ s.close.2) s.close.1
    unfold RemoteSyslogAppender.reopen
    simp only []
    rw [open_of_resolved env _ s.close.1 h']
    refine ⟨by rw [hopen.1, hclose.1], ?_⟩
    intro c hc
    rcases List.mem_append.mp hc with hc | hc
    · exact hclose.2 c hc
    · exact hopen.2 c hc
  · obtain ⟨r, hr, ⟨fd, hst⟩, hcalls⟩ := append_shape env hist s event
    exact ⟨r, hr, by rw [hst], hcalls⟩

/-- C12, witness: a resolved datagram appender is reopened on a transport
that would resolve the host to another address: the address stays, and the
calls are one `closesocket` and one `socket`. -/
theorem address_cached_witness :
    (resolvedAppender false)._ipAddr ≠ 0 ∧
    ((resolvedAppender false).reopen { fullEnv with gethostbyname := fun _ _ => some 1 } []).2.1._ipAddr
      = 16777343 ∧
    ((resolvedAppender false).reopen { fullEnv with gethostbyname := fun _ _ => some 1 } []).2.2
      = [SysCall.closesocket 3, SysCall.socket SockType.SOCK_DGRAM 3] :=
  ⟨by decide,
    (address_cached { fullEnv with gethostbyname := fun _ _ => some 1 } []
      (resolvedAppender false) helloEvent (by decide)).2.2.1.1.trans (by decide),
    by decide⟩

/-! ## Number of datagrams -/

/-- The datagram loop makes ceil(M / (900 - P)) calls, whatever `sendto`
returns. -/
theorem datagramLoop_count (env : Env) (fd : Int) (ip port : Nat) (P : Nat) (hP : P < 900)
    (fuel : Nat) : ∀ (hist : List SysCall) (buf : Bytes) (M : Nat) (cs : List SysCall),
    RemoteSyslogAppender.datagramLoop env fd ip port P fuel hist buf M = some cs →
    cs.length = (M + (900 - P) - 1) / (900 - P) := by
  induction fuel with
  | zero =>
    intro hist buf M cs h
    unfold RemoteSyslogAppender.datagramLoop at h
    split_ifs at h with hM
    rw [← Option.some.inj h]
    have : M = 0 := by omega
    subst this
    simp only [List.length_nil, zero_add]
    exact (Nat.div_eq_of_lt (by omega)).symm
  | succ fuel ih =>
    intro hist buf M cs h
    unfold RemoteSyslogAppender.datagramLoop at h
    split_ifs at h with hM hbig
    · simp only [Option.map_eq_some'] at h
      obtain ⟨cs', hcs', rfl⟩ := h
      have := ih _ _ _ _ hcs'
      rw [List.length_cons, this]
      have e : M + (900 - P) - 1 = (M - (900 - P) + (900 - P) - 1) + (900 - P) := by omega
      rw [e, Nat.add_div_right _ (by omega)]
    · rw [← Option.some.inj h]
      simp only [List.length_singleton]
      have h1 : 900 - P ≤ M + (900 - P) - 1 := by omega
      have h2 : M + (900 - P) - 1 < 2 * (900 - P) := by omega
      have h3 : (M + (900 - P) - 1) / (900 - P) < 2 :=
        (Nat.div_lt_iff_lt_mul (by omega)).mpr h2
      have h4 : 1 ≤ (M + (900 - P) - 1) / (900 - P) :=
        (Nat.le_div_iff_mul_le (by omega)).mpr (by omega)
      omega
    · rw [← Option.some.inj h]
      have : M = 0 := by omega
      subst this
      simp only [List.length_nil, zero_add]
      exact (Nat.div_eq_of_lt (by omega)).symm

/-- The datagrams of the loop do not depend on the transport: two transports
(and two histories) get the same datagrams when both loops end. -/
theorem datagramLoop_datagrams_eq (env env' : Env) (fd : Int) (ip port : Nat) (P : Nat)
    (fuel : Nat) : ∀ (hist hist' : List SysCall) (buf : Bytes) (M : Nat) (cs cs' : List SysCall),
    RemoteSyslogAppender.datagramLoop env fd ip port P fuel hist buf M = some cs →
    RemoteSyslogAppender.datagramLoop env' fd ip port P fuel hist' buf M = some cs' →
    datagramsOf cs = datagramsOf cs' := by
  induction fuel with
  | zero =>
    intro hist hist' buf M cs cs' h h'
    unfold RemoteSyslogAppender.datagramLoop at h h'
    split_ifs at h h'
    rw [← Option.some.inj h, ← Option.some.inj h']
  | succ fuel ih =>
    intro hist hist' buf M cs cs' h h'
    unfold RemoteSyslogAppender.datagramLoop at h h'
    split_ifs at h h' with hM hbig
    · simp only [Option.map_eq_some'] at h h'
      obtain ⟨ds, hds, rfl⟩ := h
      obtain ⟨ds', hds', rfl⟩ := h'
      rw [datagramsOf_cons_sendto, datagramsOf_cons_sendto, ih _ _ _ _ _ _ hds hds']
    · rw [← Option.some.inj h, ← Option.some.inj h']
      rfl
    · rw [← Option.some.inj h, ← Option.some.inj h']

/-- C14: the datagram loop ends and its number of `sendto` calls is
ceil(M / (900 - P)), for every message (of length `M`, also 0), every
preamble the code formats (3 to 13 bytes) and every transport: the values
`sendto` returns change neither the count nor the datagrams. -/
theorem datagram_count (env env' : Env) (hist hist' : List SysCall) (s : RemoteSyslogAppender)
    (event : LoggingEvent) (hudp : s._tcp = false) :
    ∃ r r', s._append env hist event = some r ∧ s._append env' hist' event = some r' ∧
      (∀ c ∈ r.calls, ∃ data ret,
        c = SysCall.sendto s._socket data s._ipAddr (htons s._portNumber) ret) ∧
      r.calls.length =
        (event.formatted.length + (900 - (sprintfPreamble (s.wirePriority event)).length) - 1)
          / (900 - (sprintfPreamble (s.wirePriority event)).length) ∧
      r'.calls.length = r.calls.length ∧
      datagramsOf r'.calls = datagramsOf r.calls := by
  have hP := wirePriority_preamble_length s event
  obtain ⟨r, hr, _⟩ := append_datagram_spec env hist s event hudp
  obtain ⟨r', hr', _⟩ := append_datagram_spec env' hist' s event hudp
  have h := hr
  have h' := hr'
  rw [append_datagram env hist s event hudp, Option.map_eq_some'] at h
  rw [append_datagram env' hist' s event hudp, Option.map_eq_some'] at h'
  obtain ⟨cs, hcs, rfl⟩ := h
  obtain ⟨cs', hcs', rfl⟩ := h'
  have hc := datagramLoop_count env _ _ _ _ (by omega) _ _ _ _ cs hcs
  have hc' := datagramLoop_count env' _ _ _ _ (by omega) _ _ _ _ cs' hcs'
  refine ⟨_, _, hr, hr', datagramLoop_calls env _ _ _ _ _ _ _ _ cs hcs, hc, ?_, ?_⟩
  · simp only [hc, hc']
  · exact datagramLoop_datagrams_eq env' env _ _ _ _ _ _ _ _ _ cs' cs hcs' hcs

set_option maxRecDepth 100000 in
/-- C14, witness: the 1000-byte message with the preamble "<11>" takes
ceil(1000 / 896) = 2 calls of `sendto`, on a transport that accepts them as
on one whose every `sendto` fails. -/
theorem datagram_count_witness :
    openDatagramAppender._tcp = false ∧
    ∃ r r', openDatagramAppender._append fullEnv [] thousandEvent = some r ∧
      openDatagramAppender._append { fullEnv with sendto := fun _ _ _ _ _ => -1 } []
        thousandEvent = some r' ∧
      r.calls.length = 2 ∧ r'.calls.length = 2 := by
  obtain ⟨r, r', hr, hr', _, hlen, hlen', _⟩ :=
    datagram_count fullEnv { fullEnv with sendto := fun _ _ _ _ _ => -1 } [] []
      openDatagramAppender thousandEvent rfl
  have e : (thousandEvent.formatted.length
      + (900 - (sprintfPreamble (openDatagramAppender.wirePriority thousandEvent)).length) - 1)
      / (900 - (sprintfPreamble (openDatagramAppender.wirePriority thousandEvent)).length) = 2 := by
    decide
  rw [e] at hlen
  exact ⟨rfl, r, r', hr, hr', hlen, by rw [hlen', hlen]⟩

/-! ## The socket after a stream send -/

/-- The calls of one iteration of the retry loop: every write is on the
handle of the iteration; when the iteration starts without a live socket
its first call is the `socket()` that returns this handle; when it does not
reach `break` and the handle is valid, its last call closes the handle. -/
theorem streamAttempt_calls (env : Env) (hist : List SysCall) (s : RemoteSyslogAppender)
    (ip port : Nat) (buf : Bytes) (M : Nat) (P : Int) :
    (∀ c ∈ (s.streamAttempt env hist ip port buf M P).2.2, ∀ fd data ret,
      c = SysCall.send fd data ret → fd = s.attemptSocket env hist) ∧
    (IS_VALID_SOCKET s._socket = false →
      (s.streamAttempt env hist ip port buf M P).2.2.head?
        = some (SysCall.socket SockType.SOCK_STREAM (s.attemptSocket env hist))) ∧
    ((s.streamAttempt env hist ip port buf M P).1 = false →
      IS_VALID_SOCKET (s.attemptSocket env hist) = true →
      (s.streamAttempt env hist ip port buf M P).2.2.getLast?
        = some (SysCall.closesocket (s.attemptSocket env hist))) := by
  have hinv : IS_VALID_SOCKET INVALID_SOCKET = false := by decide
  unfold RemoteSyslogAppender.streamAttempt RemoteSyslogAppender.streamConnect
    RemoteSyslogAppender.streamWrite RemoteSyslogAppender.attemptSocket
  simp only []
  split_ifs <;> simp_all

theorem attemptStart_state_of_fail (env : Env) (ip port : Nat) (buf : Bytes) (M : Nat) (P : Int)
    (k : Nat) : ∀ (hist : List SysCall) (s : RemoteSyslogAppender), 0 < k →
    (∀ i, i < k → ¬ (RemoteSyslogAppender.attemptStart env ip port buf M P i hist s).2.attemptSucceeds
      env (RemoteSyslogAppender.attemptStart env ip port buf M P i hist s).1 ip port buf M P) →
    (RemoteSyslogAppender.attemptStart env ip port buf M P k hist s).2
      = { s with _socket := INVALID_SOCKET } := by
  induction k with
  | zero => intro hist s hk; omega
  | succ k ih =>
    intro hist s _ hfail
    have h0 : ¬ s.attemptSucceeds env hist ip port buf M P := hfail 0 (Nat.succ_pos k)
    rw [attemptStart_succ_of_not_succeeds env ip port buf M P k hist s h0]
    rcases Nat.eq_zero_or_pos k with hk | hk
    · subst hk
      rfl
    · rw [ih _ _ hk (by
        intro i hi
        have := hfail (i + 1) (Nat.succ_lt_succ hi)
        rw [attemptStart_succ_of_not_succeeds env ip port buf M P i hist s h0] at this
        exact this)]

/-- The socket after a stream send. After `_append` returns in stream mode
the socket is valid if and only if some iteration of the retry loop had
both its writes accepted in full, that is, each returned the length that
the code asked for (the first such iteration ends the loop). For
every iteration that is run: all its writes are on its own handle; from the
second iteration on, this handle is the one returned by the `socket()` call
that opens the iteration; and when the iteration fails (socket creation or
connect fails, or a write is short) the socket is invalid afterwards and
the handle, when one was obtained, is closed by the last system call of the
iteration. So no iteration writes on a socket on which an earlier write of
the call was short. -/
theorem stream_post_state (env : Env) (hist : List SysCall)
    (s : RemoteSyslogAppender) (event : LoggingEvent) (htcp : s._tcp = true) :
    ∃ r, s._append env hist event = some r ∧
      (IS_VALID_SOCKET r.state._socket = true ↔
        ∃ k, k < 3 ∧ (∀ i, i < k → ¬ s.attemptSucceedsAt env hist event i) ∧
          s.attemptSucceedsAt env hist event k) ∧
      ∀ k, k < 3 → (∀ i, i < k → ¬ s.attemptSucceedsAt env hist event i) →
        (∀ c ∈ (s.attemptAt env hist event k).2.2, ∀ fd data ret,
          c = SysCall.send fd data ret → fd = s.attemptSocketAt env hist event k) ∧
        (0 < k → (s.attemptAt env hist event k).2.2.head?
          = some (SysCall.socket SockType.SOCK_STREAM (s.attemptSocketAt env hist event k))) ∧
        (¬ s.attemptSucceedsAt env hist event k →
          IS_VALID_SOCKET (s.attemptAt env hist event k).2.1._socket = false ∧
          (IS_VALID_SOCKET (s.attemptSocketAt env hist event k) = true →
            (s.attemptAt env hist event k).2.2.getLast?
              = some (SysCall.closesocket (s.attemptSocketAt env hist event k)))) := by
  have hinv : IS_VALID_SOCKET INVALID_SOCKET = false := by decide
  rw [append_stream env hist s event htcp]
  refine ⟨_, rfl, ⟨?_, ?_⟩, ?_⟩
  · -- a valid socket at return: some iteration succeeded
    intro hvalid
    by_contra hnone
    have hall : ∀ i, i < 3 → ¬ s.attemptSucceedsAt env hist event i := by
      intro i hi
      induction i using Nat.strong_induction_on with
      | _ i ih =>
        intro hok
        exact hnone ⟨i, hi, fun j hj => ih j hj (by omega), hok⟩
    have := (streamLoop_all_fail env s._ipAddr (htons s._portNumber)
      (wireBuffer (s.wirePriority event) event.formatted) event.formatted.length
      ((sprintfPreamble (s.wirePriority event)).length : Int) 3 hist s hall).2 (by decide)
    simp only [this] at hvalid
    change IS_VALID_SOCKET INVALID_SOCKET = true at hvalid
    rw [hinv] at hvalid
    exact Bool.noConfusion hvalid
  · -- the first iteration that succeeds leaves its socket
    rintro ⟨k, hk, hfail, hok⟩
    obtain ⟨_, fd, _, hfd, hst, _⟩ := streamLoop_first_success env s._ipAddr (htons s._portNumber)
      (wireBuffer (s.wirePriority event) event.formatted) event.formatted.length
      ((sprintfPreamble (s.wirePriority event)).length : Int) 3 k hist s hk hfail hok
    simp only [hst]
    exact hfd
  · intro k _ hfail
    obtain ⟨hsend, hhead, hlast⟩ := streamAttempt_calls env
      (RemoteSyslogAppender.attemptStart env s._ipAddr (htons s._portNumber)
        (wireBuffer (s.wirePriority event) event.formatted) event.formatted.length
        ((sprintfPreamble (s.wirePriority event)).length : Int) k hist s).1
      (RemoteSyslogAppender.attemptStart env s._ipAddr (htons s._portNumber)
        (wireBuffer (s.wirePriority event) event.formatted) event.formatted.length
        ((sprintfPreamble (s.wirePriority event)).length : Int) k hist s).2
      s._ipAddr (htons s._portNumber)
      (wireBuffer (s.wirePriority event) event.formatted) event.formatted.length
      ((sprintfPreamble (s.wirePriority event)).length : Int)
    refine ⟨hsend, ?_, ?_⟩
    · intro hk
      apply hhead
      rw [attemptStart_state_of_fail env _ _ _ _ _ k hist s hk hfail]
      exact hinv
    · intro hnot
      have hf := streamAttempt_of_not_succeeds env _ _ _ _ _ _ _ hnot
      refine ⟨?_, hlast hf.1⟩
      unfold RemoteSyslogAppender.attemptAt
      simp only [hf.2]
      exact hinv

/-- An instance of the post-state: on a transport whose first two connects fail, the third
iteration succeeds and the socket is valid at return; the second iteration
opens with its own `socket()` call and ends by closing that handle. -/
theorem stream_post_state_witness :
    (sampleAppender 8 true)._tcp = true ∧
    ∃ r, (sampleAppender 8 true)._append flakyEnv [] helloEvent = some r ∧
      IS_VALID_SOCKET r.state._socket = true ∧
      ((sampleAppender 8 true).attemptAt flakyEnv [] helloEvent 1).2.2 =
        [SysCall.socket SockType.SOCK_STREAM 3, SysCall.connect 3 0 514 (-1),
          SysCall.closesocket 3] := by
  obtain ⟨r, hr, hiff, _⟩ :=
    stream_post_state flakyEnv [] (sampleAppender 8 true) helloEvent rfl
  exact ⟨rfl, r, hr, hiff.mpr ⟨2, by decide, by decide, by decide⟩, by decide⟩

/-! ## The empty message -/

/-- The write phase on a live socket: the first call writes the length
token; when that write is accepted in full the second call writes the
buffer. -/
theorem streamWrite_calls_live (env : Env) (hist : List SysCall) (s : RemoteSyslogAppender)
    (buf : Bytes) (M : Nat) (P : Int) (hv : IS_VALID_SOCKET s._socket = true) :
    ∃ rest, (s.streamWrite env hist buf M P).2.2 =
        SysCall.send s._socket (octetFraming M P) (env.send hist s._socket (octetFraming M P))
          :: rest ∧
      (env.send hist s._socket (octetFraming M P) = ((octetFraming M P).length : Int) →
        ∃ rest', rest =
          SysCall.send s._socket (buf.take (toSizeT (streamLength M P)))
            (env.send (hist ++ [SysCall.send s._socket (octetFraming M P)
              (env.send hist s._socket (octetFraming M P))]) s._socket
              (buf.take (toSizeT (streamLength M P)))) :: rest') := by
  unfold RemoteSyslogAppender.streamWrite
  simp only [hv, if_true, octetFraming_take]
  split_ifs with h1 h2
  · exact ⟨_, rfl, fun _ => ⟨_, rfl⟩⟩
  · exact ⟨_, rfl, fun _ => ⟨_, rfl⟩⟩
  · exact ⟨_, rfl, fun h => absurd h h1⟩

/-- The calls of the retry loop begin with the calls of its first
iteration. -/
theorem streamLoop_calls_begin (env : Env) (ip port : Nat) (buf : Bytes) (M : Nat) (P : Int)
    (n : Nat) (hist : List SysCall) (s : RemoteSyslogAppender) :
    ∃ rest, (RemoteSyslogAppender.streamLoop env ip port buf M P (n + 1) hist s).2.1
      = (s.streamAttempt env hist ip port buf M P).2.2 ++ rest := by
  unfold RemoteSyslogAppender.streamLoop
  simp only []
  split_ifs
  · exact ⟨[], (List.append_nil _).symm⟩
  · exact ⟨_, rfl⟩

/-- C16: empty message asymmetry. For an event whose formatted message is
empty, `_append` in datagram mode makes no system call at all (no datagram,
not even the bare preamble); in stream mode with a live connection its
first system call writes decimal(P) ++ " " and, that write being accepted
in full, its second writes the preamble, the `P` bytes that the token
announces. -/
theorem empty_message_asymmetry (env : Env) (hist : List SysCall)
    (s : RemoteSyslogAppender) (event : LoggingEvent) (hM : event.formatted = []) :
    (s._tcp = false → ∃ r, s._append env hist event = some r ∧ r.calls = []) ∧
    (s._tcp = true → IS_VALID_SOCKET s._socket = true →
      ∃ r rest, s._append env hist event = some r ∧
        r.calls =
          SysCall.send s._socket
            (fmtUnsigned (sprintfPreamble (s.wirePriority event)).length ++ [' '])
            (env.send hist s._socket
              (fmtUnsigned (sprintfPreamble (s.wirePriority event)).length ++ [' '])) :: rest ∧
        (env.send hist s._socket
            (fmtUnsigned (sprintfPreamble (s.wirePriority event)).length ++ [' '])
          = (((fmtUnsigned (sprintfPreamble (s.wirePriority event)).length ++ [' ']).length
              : Nat) : Int) →
          ∃ rest', rest =
            SysCall.send s._socket (sprintfPreamble (s.wirePriority event))
              (env.send (hist ++ [SysCall.send s._socket
                  (fmtUnsigned (sprintfPreamble (s.wirePriority event)).length ++ [' '])
                  (env.send hist s._socket
                    (fmtUnsigned (sprintfPreamble (s.wirePriority event)).length ++ [' ']))])
                s._socket (sprintfPreamble (s.wirePriority event))) :: rest')) := by
  refine ⟨fun hudp => ?_, fun htcp hlive => ?_⟩
  · obtain ⟨r, hr, _, _, _, _, hnil, _⟩ := append_datagram_spec env hist s event hudp
    exact ⟨r, hr, hnil hM⟩
  · have hP := wirePriority_preamble_length s event
    obtain ⟨e1, _, e3⟩ := stream_frame_in_range (s.wirePriority event) event.formatted
      (by omega) (by rw [hM]; simp only [List.length_nil]; omega)
    rw [hM] at e1 e3
    simp only [List.length_nil, zero_add, List.append_nil] at e1 e3
    rw [append_stream env hist s event htcp]
    obtain ⟨rest, hrest⟩ := streamLoop_calls_begin env s._ipAddr (htons s._portNumber)
      (wireBuffer (s.wirePriority event) event.formatted) event.formatted.length
      ((sprintfPreamble (s.wirePriority event)).length : Int) 2 hist s
    obtain ⟨rest1, hw, hw2⟩ := streamWrite_calls_live env hist s
      (wireBuffer (s.wirePriority event) event.formatted) event.formatted.length
      ((sprintfPreamble (s.wirePriority event)).length : Int) hlive
    have hatt : (s.streamAttempt env hist s._ipAddr (htons s._portNumber)
        (wireBuffer (s.wirePriority event) event.formatted) event.formatted.length
        ((sprintfPreamble (s.wirePriority event)).length : Int)).2.2
        = (s.streamWrite env hist (wireBuffer (s.wirePriority event) event.formatted)
            event.formatted.length ((sprintfPreamble (s.wirePriority event)).length : Int)).2.2 := by
      unfold RemoteSyslogAppender.streamAttempt
      rw [streamConnect_live env hist s _ _ hlive]
      simp only [List.append_nil, List.nil_append]
    rw [hatt, hw] at hrest
    rw [hM] at hrest hw2
    simp only [List.length_nil] at hrest hw2
    rw [e1] at hrest hw2
    rw [e3] at hw2
    refine ⟨_, rest1 ++ rest, rfl, ?_, ?_⟩
    · simp only []
      rw [hM]
      exact hrest
    · intro hacc
      obtain ⟨rest', hr'⟩ := hw2 hacc
      exact ⟨rest' ++ rest, by rw [hr']; rfl⟩

/-- C16, witness: the empty message with the preamble "<11>": no call in
datagram mode; on a live stream connection that accepts the writes, "4 "
and then "<11>". -/
theorem empty_message_asymmetry_witness :
    (⟨[], 300⟩ : LoggingEvent).formatted = [] ∧
    (∃ r, openDatagramAppender._append fullEnv [] ⟨[], 300⟩ = some r ∧ r.calls = []) ∧
    (liveStreamAppender._append fullEnv [] ⟨[], 300⟩).map (fun r => r.calls) =
      some [SysCall.send 3 "4 ".toList 2, SysCall.send 3 "<11>".toList 4] :=
  ⟨rfl, (empty_message_asymmetry fullEnv [] openDatagramAppender ⟨[], 300⟩ rfl).1 rfl, by decide⟩

/-! ## Buffer bounds -/

theorem decimalDigits_length_gt (fuel : Nat) : ∀ (n k : Nat), 10 ^ k ≤ n → n < fuel →
    k + 1 ≤ (decimalDigits fuel n).length := by
  induction fuel with
  | zero => intro n k _ h; omega
  | succ f ih =>
    intro n k hk hf
    unfold decimalDigits
    split_ifs with h
    · have : k = 0 := by
        rcases Nat.eq_zero_or_pos k with h0 | h0
        · exact h0
        · have : 10 ^ 1 ≤ 10 ^ k := Nat.pow_le_pow_right (by decide) h0
          omega
      subst this
      simp
    · cases k with
      | zero => simp
      | succ j =>
        have hj : 10 ^ j ≤ n / 10 := by
          rw [Nat.le_div_iff_mul_le (by decide)]
          rw [pow_succ] at hk
          exact hk
        have := ih (n / 10) j hj (by omega)
        simp only [List.length_append, List.length_singleton]
        omega

/-- The number of digits of the `%u` conversion: at most `k` exactly when
the number is below `10 ^ k`. -/
theorem fmtUnsigned_length_le_iff (n k : Nat) (hk : 0 < k) :
    (fmtUnsigned n).length ≤ k ↔ n < 10 ^ k := by
  constructor
  · intro h
    by_contra hn
    have := decimalDigits_length_gt (n + 1) n k (by omega) (by omega)
    unfold fmtUnsigned at h
    omega
  · intro h
    exact fmtUnsigned_length_le n k h hk

/-- C17 (amended): the length token and its NUL fit in the 10 bytes of
`octet_framing` if and only if `(M + P) mod 2^32`, the value that the cast
to `unsigned int` leaves, is at most 99,999,999; for totals below 2^32 that
is if and only if `M + P` is at most 99,999,999, so every total from
100,000,000 to 4,294,967,295 overruns the array. -/
theorem octet_framing_fits_iff (M P : Nat) :
    (octetFramingFits M (P : Int) ↔ (M + P) % 4294967296 ≤ 99999999) ∧
    (M + P < 4294967296 → (octetFramingFits M (P : Int) ↔ M + P ≤ 99999999)) := by
  have key : octetFramingFits M (P : Int) ↔ (M + P) % 4294967296 ≤ 99999999 := by
    unfold octetFramingFits octetFraming sprintfOctetFraming
    have e : toUInt32 ((M : Int) + (P : Int)) = (M + P) % 4294967296 := by
      unfold toUInt32
      omega
    rw [e]
    simp only [List.length_append, List.length_singleton]
    have h := fmtUnsigned_length_le_iff ((M + P) % 4294967296) 8 (by decide)
    have e8 : (10 : Nat) ^ 8 = 100000000 := by norm_num
    rw [e8] at h
    constructor
    · intro hfit
      have := h.mp (by omega)
      omega
    · intro hsmall
      have := h.mpr (by omega)
      omega
  refine ⟨key, fun hlt => ?_⟩
  rw [key, Nat.mod_eq_of_lt hlt]

/-- C17, witness: with the 4-byte preamble a message of 99,999,995 bytes
still fits (token "99999999 "), one of 99,999,996 bytes does not. -/
theorem octet_framing_fits_iff_witness :
    99999995 + 4 < 4294967296 ∧ octetFramingFits 99999995 ((4 : Nat) : Int) ∧
    ¬ octetFramingFits 99999996 ((4 : Nat) : Int) :=
  ⟨by decide,
    ((octet_framing_fits_iff 99999995 4).2 (by decide)).mpr (by decide),
    fun h => absurd (((octet_framing_fits_iff 99999996 4).2 (by decide)).mp h) (by decide)⟩

/-- C17, counterexample: a total length of 2^32 (message of 4,294,967,292
bytes, preamble of 4) is above 100,000,000, yet the token is "0 " and fits
in the array. -/
theorem octet_framing_fits_at_two_pow_32 :
    100000000 ≤ 4294967292 + 4 ∧ octetFraming 4294967292 ((4 : Nat) : Int) = "0 ".toList ∧
    octetFramingFits 4294967292 ((4 : Nat) : Int) ∧
    ¬ (octetFramingFits 4294967292 ((4 : Nat) : Int) ↔ 4294967292 + 4 ≤ 99999999) := by
  refine ⟨by decide, by decide, by decide, ?_⟩
  intro h
  exact absurd (h.mp (by decide)) (by decide)

/-- The access model follows the datagram loop: it ends when the loop ends,
and has one `sendto` read for each `sendto` call. -/
theorem datagramAccesses_of_loop (env : Env) (fd : Int) (ip port : Nat) (P : Nat) (fuel : Nat) :
    ∀ (hist : List SysCall) (buf : Bytes) (M : Nat) (cs : List SysCall),
    RemoteSyslogAppender.datagramLoop env fd ip port P fuel hist buf M = some cs →
    ∃ as, RemoteSyslogAppender.datagramAccesses P fuel M = some as ∧
      (as.filter (fun a => a.kind = AccessKind.sendRead)).length = cs.length := by
  induction fuel with
  | zero =>
    intro hist buf M cs h
    unfold RemoteSyslogAppender.datagramLoop at h
    unfold RemoteSyslogAppender.datagramAccesses
    split_ifs at h ⊢
    rw [← Option.some.inj h]
    exact ⟨[], rfl, rfl⟩
  | succ fuel ih =>
    intro hist buf M cs h
    unfold RemoteSyslogAppender.datagramLoop at h
    unfold RemoteSyslogAppender.datagramAccesses
    split_ifs at h ⊢ with hM hbig
    · simp only [Option.map_eq_some'] at h
      obtain ⟨cs', hcs', rfl⟩ := h
      obtain ⟨as, has, hlen⟩ := ih _ _ _ _ hcs'
      refine ⟨_, by simp only [has, Option.map_some']; rfl, ?_⟩
      simp [List.filter_cons, hlen]
    · rw [← Option.some.inj h]
      exact ⟨_, rfl, by simp [List.filter_cons]⟩
    · rw [← Option.some.inj h]
      exact ⟨[], rfl, rfl⟩

/-- Every access of the datagram loop stays within the first `P + M` bytes
of the buffer, and the loop ends within `M` iterations. -/
theorem datagramAccesses_bound (P : Nat) (hP : P < 900) (fuel : Nat) :
    ∀ (M : Nat), M ≤ fuel →
    ∃ as, RemoteSyslogAppender.datagramAccesses P fuel M = some as ∧
      ∀ a ∈ as, a.offset + a.length ≤ P + M := by
  induction fuel with
  | zero =>
    intro M hM
    have : M = 0 := by omega
    subst this
    exact ⟨[], by simp [RemoteSyslogAppender.datagramAccesses], fun a ha => by simp at ha⟩
  | succ fuel ih =>
    intro M hM
    unfold RemoteSyslogAppender.datagramAccesses
    split_ifs with hpos hbig
    · obtain ⟨as, has, hb⟩ := ih (M - (900 - P)) (by omega)
      refine ⟨_, by simp only [has, Option.map_some']; rfl, ?_⟩
      intro a ha
      simp only [List.mem_cons] at ha
      rcases ha with rfl | rfl | rfl | ha
      · simp only; omega
      · simp only; omega
      · simp only; omega
      · have := hb a ha
        omega
    · refine ⟨_, rfl, ?_⟩
      intro a ha
      rw [List.mem_singleton.mp ha]
      simp only [zero_add]
      unfold toSizeT wrap32
      omega
    · exact ⟨[], rfl, fun a ha => by simp at ha⟩

theorem wireBuffer_length (p : Int) (message : Bytes) (h : (sprintfPreamble p).length ≤ 15) :
    (wireBuffer p message).length = message.length + 16 := by
  rw [wireBuffer_eq p message h]
  simp only [List.length_append, List.length_replicate]
  omega

/-- C18: wire-buffer bounds. For every 32-bit priority value and every
message of length `M`, the preamble length `P` that `sprintf` returns is
between 3 and 13; so the preamble with its NUL (`P + 1` bytes from offset
0) and the copied message (`M` bytes from offset `P`) fit in the `M + 16`
bytes of the buffer, which keeps that length; and the datagram loop ends
with every one of its accesses (the bytes each `sendto` sends, the source
and the destination of each `memmove`) within the first `P + M` bytes. -/
theorem wire_buffer_bounds (p : Int) (message : Bytes) (h1 : INT_MIN ≤ p) (h2 : p ≤ INT_MAX) :
    3 ≤ (sprintfPreamble p).length ∧ (sprintfPreamble p).length ≤ 13 ∧
    (sprintfPreamble p).length + 1 ≤ message.length + 16 ∧
    (sprintfPreamble p).length + message.length ≤ message.length + 16 ∧
    (wireBuffer p message).length = message.length + 16 ∧
    ∃ as, RemoteSyslogAppender.datagramAccesses (sprintfPreamble p).length
        message.length message.length = some as ∧
      ∀ a ∈ as, a.offset + a.length ≤ (sprintfPreamble p).length + message.length := by
  have hP := sprintfPreamble_length p h1 h2
  refine ⟨hP.1, hP.2, by omega, by omega, wireBuffer_length p message (by omega), ?_⟩
  exact datagramAccesses_bound _ (by omega) _ _ (le_refl _)

set_option maxRecDepth 100000 in
/-- C18, witness: the 1000-byte message with the preamble "<11>": the first
`sendto` reads bytes [0,900), the `memmove` reads the 104 bytes [900,1004)
and writes [4,108), the second `sendto` reads [0,108); all within the first
1004 bytes. -/
theorem wire_buffer_bounds_witness :
    INT_MIN ≤ (11 : Int) ∧ (11 : Int) ≤ INT_MAX ∧
    (sprintfPreamble 11).length = 4 ∧ (wireBuffer 11 thousandBytes).length = 1016 ∧
    RemoteSyslogAppender.datagramAccesses 4 1000 1000 =
      some [{ kind := AccessKind.sendRead, offset := 0, length := 900 },
        { kind := AccessKind.moveRead, offset := 900, length := 104 },
        { kind := AccessKind.moveWrite, offset := 4, length := 104 },
        { kind := AccessKind.sendRead, offset := 0, length := 108 }] :=
  ⟨by decide, by decide, by decide,
    (wire_buffer_bounds 11 thousandBytes (by decide) (by decide)).2.2.2.2.1.trans (by decide),
    by decide⟩

/-! ## The single-socket invariant -/

theorem liveAfter_append (live : List Int) (a b : List SysCall) :
    liveAfter live (a ++ b) = liveAfter (liveAfter live a) b := by
  unfold liveAfter
  exact List.foldl_append _ _ _ _

theorem close_single (live : List Int) (s : RemoteSyslogAppender) (h : SingleSocket live s) :
    SingleSocket (liveAfter live s.close.2) s.close.1 ∧
    IS_VALID_SOCKET s.close.1._socket = false := by
  have hinv : IS_VALID_SOCKET INVALID_SOCKET = false := by decide
  unfold SingleSocket at h
  by_cases hv : IS_VALID_SOCKET s._socket = true
  · have e : s.close = ({ s with _socket := INVALID_SOCKET }, [SysCall.closesocket s._socket]) := by
      unfold RemoteSyslogAppender.close
      simp only [hv, if_true]
    simp only [hv, if_true] at h
    subst h
    rw [e]
    simp [SingleSocket, liveAfter, liveStep, hinv]
  · have e : s.close = (s, []) := by
      unfold RemoteSyslogAppender.close
      simp [hv]
    simp only [hv, if_false] at h
    subst h
    rw [e]
    simp [SingleSocket, liveAfter, hv]

theorem openSocket_single (env : Env) (hist : List SysCall) (live : List Int)
    (s : RemoteSyslogAppender) (h : SingleSocket live s)
    (hclosed : IS_VALID_SOCKET s._socket = false) :
    SingleSocket (liveAfter live (s.openSocket env hist).2) (s.openSocket env hist).1 := by
  unfold SingleSocket at h
  simp only [hclosed, Bool.false_eq_true, if_false] at h
  subst h
  by_cases h1 : s._tcp = true
  · have e : s.openSocket env hist = (s, []) := by
      unfold RemoteSyslogAppender.openSocket
      simp [h1]
    rw [e]
    simp [SingleSocket, liveAfter, hclosed]
  · have e : s.openSocket env hist =
        ({ s with _socket := env.socket hist SockType.SOCK_DGRAM },
          [SysCall.socket SockType.SOCK_DGRAM (env.socket hist SockType.SOCK_DGRAM)]) := by
      unfold RemoteSyslogAppender.openSocket
      simp [h1]
    rw [e]
    by_cases hv : IS_VALID_SOCKET (env.socket hist SockType.SOCK_DGRAM) = true
    · simp [SingleSocket, liveAfter, liveStep, hv]
    · simp [SingleSocket, liveAfter, liveStep, hv]

/-- From a state whose socket is invalid, `open()` keeps the invariant. -/
theorem open_single (env : Env) (hist : List SysCall) (live : List Int)
    (s : RemoteSyslogAppender) (h : SingleSocket live s)
    (hclosed : IS_VALID_SOCKET s._socket = false) :
    SingleSocket (liveAfter live (s.open env hist).2) (s.open env hist).1 := by
  unfold RemoteSyslogAppender.open
  by_cases h0 : s._ipAddr = 0
  · simp only [h0, if_true]
    cases h1 : env.gethostbyname hist s._relayer with
    | some addr =>
      simp only []
      rw [liveAfter_append]
      exact openSocket_single env _ _ { s with _ipAddr := addr } h hclosed
    | none =>
      simp only []
      cases h2 : env.gethostbyaddr (hist ++ [SysCall.gethostbyname s._relayer none])
          (env.inet_addr s._relayer) with
      | some addr =>
        simp only []
        rw [liveAfter_append]
        exact openSocket_single env _ _ { s with _ipAddr := addr } h hclosed
      | none =>
        simp only []
        exact h
  · simp only [h0, if_false]
    exact openSocket_single env hist live s h hclosed

/-- One iteration of the retry loop keeps the invariant. -/
theorem streamAttempt_single (env : Env) (hist : List SysCall) (live : List Int)
    (s : RemoteSyslogAppender) (ip port : Nat) (buf : Bytes) (M : Nat) (P : Int)
    (h : SingleSocket live s) :
    SingleSocket (liveAfter live (s.streamAttempt env hist ip port buf M P).2.2)
      (s.streamAttempt env hist ip port buf M P).2.1 := by
  have hinv : IS_VALID_SOCKET INVALID_SOCKET = false := by decide
  unfold SingleSocket at h
  subst h
  unfold RemoteSyslogAppender.streamAttempt RemoteSyslogAppender.streamConnect
    RemoteSyslogAppender.streamWrite
  simp only []
  split_ifs <;> simp_all [SingleSocket, liveAfter, liveStep]

/-- The retry loop keeps the invariant. -/
theorem streamLoop_single (env : Env) (ip port : Nat) (buf : Bytes) (M : Nat) (P : Int)
    (n : Nat) : ∀ (hist : List SysCall) (live : List Int) (s : RemoteSyslogAppender),
    SingleSocket live s →
    SingleSocket
      (liveAfter live (RemoteSyslogAppender.streamLoop env ip port buf M P n hist s).2.1)
      (RemoteSyslogAppender.streamLoop env ip port buf M P n hist s).1 := by
  induction n with
  | zero =>
    intro hist live s h
    simp only [RemoteSyslogAppender.streamLoop]
    exact h
  | succ n ih =>
    intro hist live s h
    have h1 := streamAttempt_single env hist live s ip port buf M P h
    unfold RemoteSyslogAppender.streamLoop
    simp only []
    split_ifs
    · exact h1
    · rw [liveAfter_append]
      exact ih _ _ _ h1

theorem liveAfter_sendto (fd : Int) (ip port : Nat) (live : List Int) :
    ∀ cs : List SysCall, (∀ c ∈ cs, ∃ data ret, c = SysCall.sendto fd data ip port ret) →
    liveAfter live cs = live := by
  intro cs
  induction cs generalizing live with
  | nil => intro _; rfl
  | cons c cs ih =>
    intro h
    obtain ⟨data, ret, rfl⟩ := h c (List.mem_cons_self _ _)
    exact ih live (fun c hc => h c (List.mem_cons_of_mem _ hc))

/-- A call of `_append` keeps the invariant. -/
theorem append_single (env : Env) (hist : List SysCall) (live : List Int)
    (s : RemoteSyslogAppender) (event : LoggingEvent) (r : AppendResult)
    (h : SingleSocket live s) (hr : s._append env hist event = some r) :
    SingleSocket (liveAfter live r.calls) r.state := by
  by_cases htcp : s._tcp = true
  · rw [append_stream env hist s event htcp] at hr
    rw [← Option.some.inj hr]
    exact streamLoop_single env _ _ _ _ _ 3 hist live s h
  · have hudp : s._tcp = false := by simpa using htcp
    rw [append_datagram env hist s event hudp, Option.map_eq_some'] at hr
    obtain ⟨cs, hcs, rfl⟩ := hr
    simp only []
    rw [liveAfter_sendto _ _ _ live cs (datagramLoop_calls env _ _ _ _ _ _ _ _ cs hcs)]
    exact h

/-- A call of `reopen()` keeps the invariant. -/
theorem reopen_single (env : Env) (hist : List SysCall) (live : List Int)
    (s : RemoteSyslogAppender) (h : SingleSocket live s) :
    SingleSocket (liveAfter live (s.reopen env hist).2.2) (s.reopen env hist).2.1 := by
  obtain ⟨hc, hclosed⟩ := close_single live s h
  unfold RemoteSyslogAppender.reopen
  simp only []
  rw [liveAfter_append]
  exact open_single env _ _ _ hc hclosed

/-- Every reachable state satisfies the invariant. -/
theorem reachable_single (env : Env) (hist : List SysCall) (s : RemoteSyslogAppender)
    (h : Reachable env hist s) : SingleSocket (liveSockets hist) s := by
  induction h with
  | construct name syslogName relayer facility portNumber tcp =>
    unfold RemoteSyslogAppender.construct liveSockets
    simp only []
    exact open_single env [] [] _ rfl rfl
  | append hist s event r _ hr ih =>
    unfold liveSockets at *
    rw [liveAfter_append]
    exact append_single env hist _ s event r ih hr
  | close hist s _ ih =>
    unfold liveSockets at *
    rw [liveAfter_append]
    exact (close_single _ s ih).1
  | reopen hist s _ ih =>
    unfold liveSockets at *
    rw [liveAfter_append]
    exact reopen_single env hist _ s ih

/-- C19: single-socket invariant. In every state reachable from
construction by the operations `append`, `close` and `reopen`, in either
transport and whatever the transport answers, the socket handles that the
appender has created and not closed are exactly the valid handle stored in
`_socket`, or none when `_socket` is invalid; so at most one socket is
open, and none was overwritten without being closed (it would still be in
the list). -/
theorem single_socket_invariant (env : Env) (hist : List SysCall) (s : RemoteSyslogAppender)
    (h : Reachable env hist s) :
    liveSockets hist = (if IS_VALID_SOCKET s._socket then [s._socket] else []) ∧
    (liveSockets hist).length ≤ 1 := by
  have hs := reachable_single env hist s h
  unfold SingleSocket at hs
  refine ⟨hs, ?_⟩
  rw [hs]
  split_ifs <;> simp

/-- C19, witness: a datagram appender is constructed and then reopened on a
transport that gives socket 3 each time: the calls are `gethostbyname`,
`socket`, `closesocket`, `socket`, and the one open handle is the stored
one. -/
theorem single_socket_invariant_witness :
    Reachable fullEnv
      ((RemoteSyslogAppender.construct fullEnv [] "remote" "app" "loghost" (-1) (-1) false).2 ++
        ((RemoteSyslogAppender.construct fullEnv [] "remote" "app" "loghost" (-1) (-1) false).1.reopen
          fullEnv
          (RemoteSyslogAppender.construct fullEnv [] "remote" "app" "loghost" (-1) (-1) false).2).2.2)
      ((RemoteSyslogAppender.construct fullEnv [] "remote" "app" "loghost" (-1) (-1) false).1.reopen
        fullEnv
        (RemoteSyslogAppender.construct fullEnv [] "remote" "app" "loghost" (-1) (-1) false).2).2.1 ∧
    liveSockets
      ((RemoteSyslogAppender.construct fullEnv [] "remote" "app" "loghost" (-1) (-1) false).2 ++
        ((RemoteSyslogAppender.construct fullEnv [] "remote" "app" "loghost" (-1) (-1) false).1.reopen
          fullEnv
          (RemoteSyslogAppender.construct fullEnv [] "remote" "app" "loghost" (-1) (-1) false).2).2.2)
      = [3] :=
  ⟨Reachable.reopen _ _ (Reachable.construct "remote" "app" "loghost" (-1) (-1) false),
    (single_socket_invariant fullEnv _ _
      (Reachable.reopen _ _ (Reachable.construct "remote" "app" "loghost" (-1) (-1) false))).1.trans
      (by decide)⟩

/-! ## The stream transport beyond the range of the length token -/

/-- A fresh stream appender with facility 8 on the transport that accepts
everything, and a message at level 300 whose length `M` the code turns into
the token `token` and the length `n` of the second write: one iteration,
which connects socket 3 and has both writes accepted in full, writing
`token` and the first `n` bytes of the buffer. -/
theorem stream_calls_of_lengths (message token data : Bytes) (M n : Nat)
    (hM : message.length = M)
    (hof : octetFraming M ((4 : Nat) : Int) = token)
    (hsl : streamLength M ((4 : Nat) : Int) = (n : Int))
    (hsz : toSizeT (n : Int) = n)
    (hdata : (wireBuffer 11 message).take n = data) (hlen : data.length = n) :
    (resolvedAppender true).attemptSucceedsAt fullEnv []
      { formatted := message, priority := 300 } 0 ∧
    ((resolvedAppender true)._append fullEnv [] { formatted := message, priority := 300 }).map
      (fun r => (r.calls, r.attempts, r.state._socket)) =
      some ([SysCall.socket SockType.SOCK_STREAM 3, SysCall.connect 3 16777343 514 0,
          SysCall.send 3 token (token.length : Int), SysCall.send 3 data (n : Int)], 1, 3) := by
  have hpri : (resolvedAppender true).wirePriority { formatted := message, priority := 300 }
      = 11 := by
    show wrap32 (8 + toSyslogPriority 300) = 11
    decide
  have hP : (sprintfPreamble 11).length = 4 := by decide
  have hok : (resolvedAppender true).attemptSucceeds fullEnv [] (resolvedAppender true)._ipAddr
      (htons (resolvedAppender true)._portNumber) (wireBuffer 11 message) M ((4 : Nat) : Int) := by
    unfold RemoteSyslogAppender.attemptSucceeds
    rw [hsl, hof, hsz, hdata]
    refine ⟨Or.inr ⟨by decide, by decide⟩, rfl, ?_⟩
    show ((data.length : Nat) : Int) = (n : Int)
    rw [hlen]
  refine ⟨?_, ?_⟩
  · unfold RemoteSyslogAppender.attemptSucceedsAt RemoteSyslogAppender.attemptStart
    simp only []
    rw [hpri, hP, hM]
    exact hok
  · rw [append_stream _ _ _ _ (by decide), Option.map_some']
    simp only []
    rw [hpri, hP, hM]
    rw [streamLoop_of_succeeds _ _ _ _ _ _ 2 [] (resolvedAppender true) hok]
    rw [hsl, hof, hsz, hdata]
    rfl

theorem wireBuffer_take_one_more (message : Bytes) (c : Char) (rest : Bytes)
    (hm : message = c :: rest) :
    (wireBuffer 11 message).take 5 = "<11>".toList ++ [c] := by
  have hP : (sprintfPreamble 11).length = 4 := by decide
  have hpre : sprintfPreamble 11 = "<11>".toList := by decide
  rw [wireBuffer_eq 11 message (by rw [hP]; decide), hm, hpre]
  rfl

/-- C8: the code at the failing input. A fresh stream appender, facility 8,
on a transport that connects socket 3 and accepts every write in full; the
event has level 300 (preamble "<11>") and a message of 4,294,967,297 bytes
"x", so `M + P` is 2^32 + 5. The first attempt connects, both its writes
return the length asked for, and the loop ends after this one attempt; but
the casts have made the token "5 " and the second write 5 bytes long: what
is written is "5 " and "<11>x", not the framed message of 4,294,967,301
bytes and its token. -/
theorem stream_attempt_succeeds_on_truncated_frame :
    (List.replicate 4294967297 'x').length + 4 = 4294967301 ∧
    (resolvedAppender true).attemptSucceedsAt fullEnv []
      { formatted := List.replicate 4294967297 'x', priority := 300 } 0 ∧
    ((resolvedAppender true)._append fullEnv []
        { formatted := List.replicate 4294967297 'x', priority := 300 }).map
      (fun r => (r.calls, r.attempts, r.state._socket)) =
      some ([SysCall.socket SockType.SOCK_STREAM 3, SysCall.connect 3 16777343 514 0,
          SysCall.send 3 "5 ".toList 2, SysCall.send 3 "<11>x".toList 5], 1, 3) := by
  have h := stream_calls_of_lengths (List.replicate 4294967297 'x') "5 ".toList
    "<11>x".toList 4294967297 5 (List.length_replicate _ _) (by decide) (by decide) (by decide)
    (wireBuffer_take_one_more _ 'x' (List.replicate 4294967296 'x')
      (List.replicate_succ 'x' 4294967296)) (by decide)
  exact ⟨by rw [List.length_replicate], h.1, h.2⟩

/-- C15: the code at the failing input. A fresh stream appender, facility 8,
on a transport that connects socket 3 and accepts every write in full; the
event has level 300 (preamble "<11>") and a message of 4,294,967,292 bytes,
so `M + P` is 2^32. After `_append` the socket is valid (3), although no
attempt wrote the preamble and the message: the only attempt wrote the
token "0 " and then 0 bytes of the buffer. -/
theorem stream_socket_valid_without_buffer_written :
    (List.replicate 4294967292 'x').length + 4 = 4294967296 ∧
    ((resolvedAppender true)._append fullEnv []
        { formatted := List.replicate 4294967292 'x', priority := 300 }).map
      (fun r => (IS_VALID_SOCKET r.state._socket, r.calls, r.attempts, r.state._socket)) =
      some (true, [SysCall.socket SockType.SOCK_STREAM 3, SysCall.connect 3 16777343 514 0,
          SysCall.send 3 "0 ".toList 2, SysCall.send 3 [] 0], 1, 3) := by
  have h := (stream_calls_of_lengths (List.replicate 4294967292 'x') "0 ".toList
    [] 4294967292 0 (List.length_replicate _ _) (by decide) (by decide) (by decide)
    (List.take_zero _) rfl).2
  refine ⟨by rw [List.length_replicate], ?_⟩
  rw [Option.map_eq_some'] at h ⊢
  obtain ⟨r, hr, hv⟩ := h
  refine ⟨r, hr, ?_⟩
  have h1 : r.calls = _ := congrArg Prod.fst hv
  have h2 : r.attempts = _ := congrArg (fun x => x.2.1) hv
  have h3 : r.state._socket = 3 := congrArg (fun x => x.2.2) hv
  simp only [h1, h2, h3]
  rfl

end log4cpp
